import Mathlib

/-!
Verification of the git-sync-service synchronization engine
(`src/services/sync_engine.py`, with the record models from
`src/database/models.py` and the configuration from `src/config/settings.py`).

The engine keeps a GitHub repository ("source", git remote `origin`) and a
Gitea repository ("mirror", git remote `gitea`) in agreement.  The embedding
below translates the Python functions into pure Lean functions:

* the git layer (GitPython calls `repo.refs`, `repo.commit`, `repo.iter_commits`,
  `repo.git.push`) is modelled by a `RepoView` oracle describing the fetched
  clone, and by an explicit trace of `GitPush` commands for the pushes the
  engine issues;
* the SQLAlchemy session layer is modelled by a `Store` value passed and
  returned explicitly; each `with get_session()` block of the Python code
  becomes one `Store → Store` function;
* exceptions become `Except` values (`SyncConflictError` carries the diverged
  branch list that the Python exception embeds in its message).
-/

namespace GitSync

/-- Association-list lookup, first match wins (mirrors Python `in` tests and
SQLAlchemy `.first()` on a keyed query). -/
def alookup {α : Type} (k : String) : List (String × α) → Option α
  | [] => none
  | (k', v) :: rest => if k' = k then some v else alookup k rest

/-- The two platforms.  `github` is the clone's `origin` remote, `gitea` the
`gitea` remote added by `_sync_existing_repositories`. -/
inductive Side where
  | github
  | gitea
deriving DecidableEq, Repr

/-- State of the working clone after both remotes are fetched, as seen by
`_analyze_repository_differences` (sync_engine.py lines 267-317).  Commits are
identified by natural numbers standing for hexshas.

* `githubRefs` / `giteaRefs`: tip commit of each `origin/…` / `gitea/…`
  remote-tracking branch ref in `repo.refs`.
* `githubTags` / `giteaTags`: the tag refs of each remote.  (The analyzer
  filters `repo.refs` for the `origin/` and `gitea/` name prefixes, so tag
  refs never enter the branch loop.)
* `cmp`: the outcome of the `try` block of lines 297-315 for a branch present
  on both sides: `some (githubAhead, giteaAhead)` gives the commit lists of
  `repo.iter_commits("gitea/b..origin/b")` and `repo.iter_commits("origin/b..gitea/b")`;
  a branch missing from `cmp` models the git calls raising (e.g. a broken ref). -/
structure RepoView where
  githubRefs : List (String × Nat)
  giteaRefs : List (String × Nat)
  githubTags : List (String × Nat)
  giteaTags : List (String × Nat)
  cmp : List (String × (List Nat × List Nat))
deriving DecidableEq, Repr

/-- Tip commit of `origin/branch`, i.e. the hexsha `repo.commit(github_ref)` yields. -/
def githubTip (rv : RepoView) (branch : String) : Option Nat :=
  alookup branch rv.githubRefs

/-- Tip commit of `gitea/branch`. -/
def giteaTip (rv : RepoView) (branch : String) : Option Nat :=
  alookup branch rv.giteaRefs

/-- Result of the ancestry comparison of one branch (`none` = the git calls raised). -/
def branchCmp (rv : RepoView) (branch : String) : Option (List Nat × List Nat) :=
  alookup branch rv.cmp

/-- The `differences` dictionary built by `_analyze_repository_differences`
(lines 269-276), with the nested `new_branches` / `new_tags` dictionaries
flattened into one field per key. -/
structure Differences where
  has_conflicts : Bool := false
  github_ahead : List String := []
  gitea_ahead : List String := []
  diverged_branches : List String := []
  new_branches_github : List String := []
  new_branches_gitea : List String := []
  new_tags_github : List String := []
  new_tags_gitea : List String := []
deriving DecidableEq, Repr

/-- The `all_branches = github_branches | gitea_branches` set of line 282: every
branch name seen on either remote, each name once. -/
def allBranches (rv : RepoView) : List String :=
  ((rv.githubRefs.map Prod.fst) ++ (rv.giteaRefs.map Prod.fst)).dedup

/-- One iteration of the `for branch in all_branches` loop (lines 284-315). -/
def analyzeBranch (rv : RepoView) (d : Differences) (branch : String) : Differences :=
  match githubTip rv branch, giteaTip rv branch with
  | some _, none =>
      { d with new_branches_github := d.new_branches_github ++ [branch] }
  | none, some _ =>
      { d with new_branches_gitea := d.new_branches_gitea ++ [branch] }
  | none, none => d
  | some g, some t =>
      match branchCmp rv branch with
      | none => d
      | some (githubAhead, giteaAhead) =>
          if g ≠ t then
            if ¬githubAhead.isEmpty ∧ ¬giteaAhead.isEmpty then
              { d with diverged_branches := d.diverged_branches ++ [branch],
                       has_conflicts := true }
            else if ¬githubAhead.isEmpty then
              { d with github_ahead := d.github_ahead ++ [branch] }
            else if ¬giteaAhead.isEmpty then
              { d with gitea_ahead := d.gitea_ahead ++ [branch] }
            else d
          else d

/-- `_analyze_repository_differences` (lines 267-317): fold the per-branch
classification over every branch seen on either remote.  Tags never enter the
loop, so the `new_tags` fields keep their initial empty value. -/
def analyze_repository_differences (rv : RepoView) : Differences :=
  (allBranches rv).foldl (analyzeBranch rv) {}

/-- Condition under which the loop appends `branch` to `new_branches["github"]`. -/
def condGithubOnly (rv : RepoView) (branch : String) : Bool :=
  (githubTip rv branch).isSome && (giteaTip rv branch).isNone

/-- Condition under which the loop appends `branch` to `new_branches["gitea"]`. -/
def condGiteaOnly (rv : RepoView) (branch : String) : Bool :=
  (githubTip rv branch).isNone && (giteaTip rv branch).isSome

/-- Condition under which the loop appends `branch` to `diverged_branches`. -/
def condDiverged (rv : RepoView) (branch : String) : Bool :=
  match githubTip rv branch, giteaTip rv branch, branchCmp rv branch with
  | some g, some t, some (ga, ta) => decide (g ≠ t) && (!ga.isEmpty && !ta.isEmpty)
  | _, _, _ => false

/-- Condition under which the loop appends `branch` to `github_ahead`. -/
def condGithubAhead (rv : RepoView) (branch : String) : Bool :=
  match githubTip rv branch, giteaTip rv branch, branchCmp rv branch with
  | some g, some t, some (ga, ta) => decide (g ≠ t) && (!ga.isEmpty && ta.isEmpty)
  | _, _, _ => false

/-- Condition under which the loop appends `branch` to `gitea_ahead`. -/
def condGiteaAhead (rv : RepoView) (branch : String) : Bool :=
  match githubTip rv branch, giteaTip rv branch, branchCmp rv branch with
  | some g, some t, some (ga, ta) => decide (g ≠ t) && (ga.isEmpty && !ta.isEmpty)
  | _, _, _ => false

/-- The engine-relevant fields of `Settings` (config/settings.py).  The pydantic
type restricts `conflict_resolution` to `github_wins`, `gitea_wins` or `manual`;
we keep it a `String` and quantify claims over those three values. -/
structure Settings where
  gitea_url : String
  gitea_user : String
  conflict_resolution : String
  sync_tags : Bool
  max_concurrent_syncs : Nat
deriving DecidableEq, Repr

/-- One git push issued by the engine.  `dest` is the remote pushed to
(`Side.github` = the `origin` remote, `Side.gitea` = the `gitea` remote). -/
inductive GitPush where
  /-- A single-branch push `repo.git.push(dest, "srcSide/branchName:branchName")`,
  with `--force` when `force` is true.  The refspec source `origin/b` resolves
  to GitHub's tip of `b` in the clone, `gitea/b` to Gitea's tip. -/
  | branch (dest : Side) (srcSide : Side) (branchName : String) (force : Bool)
  /-- The wholesale tag push `repo.git.push("gitea", "--tags")` (line 344). -/
  | allTags (dest : Side)
  /-- The push `repo.git.push("origin", "gitea/*:refs/tags/*")` (line 345). -/
  | giteaGlobToTags (dest : Side)
  /-- The push `remote.push(refspec="refs/heads/*:refs/heads/*")` used when a
  missing repository is first created on one platform. -/
  | allHeadsGlob (dest : Side)
  /-- The push `remote.push(refspec="refs/tags/*:refs/tags/*")` used when a
  missing repository is first created on one platform. -/
  | allTagsGlob (dest : Side)
deriving DecidableEq, Repr

/-- The commit a branch push transfers: the clone's tip of the source side's
remote-tracking ref named in the refspec. -/
def pushSourceCommit (rv : RepoView) : GitPush → Option Nat
  | .branch _ srcSide b _ =>
      match srcSide with
      | .github => githubTip rv b
      | .gitea => giteaTip rv b
  | _ => none

/-- Result dictionaries returned by `sync_repository`'s helpers. -/
inductive SyncResult where
  /-- The dictionary of line 199: the Gitea repository was created from GitHub. -/
  | createdGitea
  /-- The dictionary of line 204: the GitHub repository was created from Gitea. -/
  | createdGithub
  /-- The dictionary of line 348: a conflict-free sync, with its action strings. -/
  | synced (details : List String)
  /-- The dictionary of line 367: diverged branches force-resolved per policy. -/
  | conflictResolved (details : List String)
deriving DecidableEq, Repr

/-- Exceptions of the sync path. -/
inductive SyncError where
  /-- `SyncConflictError` (line 353); its message carries the diverged branch
  list, modelled here as the payload. -/
  | conflict (branches : List String)
  /-- Any other exception, e.g. the `ValueError` of line 193. -/
  | other (msg : String)
deriving DecidableEq, Repr

/-- `_perform_simple_sync` (lines 319-348): the pushes executed and the result
dictionary, in the loop order of the code.  Every branch push is non-force. -/
def perform_simple_sync (sync_tags : Bool) (d : Differences) :
    List GitPush × SyncResult :=
  (d.new_branches_github.map (fun b => GitPush.branch .gitea .github b false) ++
   d.new_branches_gitea.map (fun b => GitPush.branch .github .gitea b false) ++
   d.github_ahead.map (fun b => GitPush.branch .gitea .github b false) ++
   d.gitea_ahead.map (fun b => GitPush.branch .github .gitea b false) ++
   (if sync_tags then [GitPush.allTags .gitea, GitPush.giteaGlobToTags .github] else []),
   .synced
     (d.new_branches_github.map (fun b => "pushed_to_gitea: " ++ b) ++
      d.new_branches_gitea.map (fun b => "pushed_to_github: " ++ b) ++
      d.github_ahead.map (fun b => "synced_to_gitea: " ++ b) ++
      d.gitea_ahead.map (fun b => "synced_to_github: " ++ b) ++
      (if sync_tags then ["synced_tags"] else [])))

/-- The per-branch body of the `for branch in differences["diverged_branches"]`
loop of `_handle_sync_conflicts` (lines 357-365): one force push when the
policy picks a winner, nothing otherwise. -/
def divergedPush (conflict_resolution : String) (b : String) : List GitPush :=
  if conflict_resolution = "github_wins" then [GitPush.branch .gitea .github b true]
  else if conflict_resolution = "gitea_wins" then [GitPush.branch .github .gitea b true]
  else []

/-- The action string the same loop body appends. -/
def divergedAction (conflict_resolution : String) (b : String) : List String :=
  if conflict_resolution = "github_wins" then ["github_wins: " ++ b]
  else if conflict_resolution = "gitea_wins" then ["gitea_wins: " ++ b]
  else []

/-- `_handle_sync_conflicts` (lines 350-367): under policy `manual` raise
`SyncConflictError` naming the diverged branches before any push; otherwise
force-push the winning side of every diverged branch. -/
def handle_sync_conflicts (conflict_resolution : String) (d : Differences) :
    Except SyncError (List GitPush × SyncResult) :=
  if conflict_resolution = "manual" then
    .error (.conflict d.diverged_branches)
  else
    .ok ((d.diverged_branches.map (divergedPush conflict_resolution)).flatten,
         .conflictResolved ((d.diverged_branches.map (divergedAction conflict_resolution)).flatten))

/-- `_sync_existing_repositories` (lines 244-265), after the clone and fetch:
analyze, then either the simple sync or the conflict handler — never both. -/
def sync_existing_repositories (conflict_resolution : String) (sync_tags : Bool)
    (rv : RepoView) : Except SyncError (List GitPush × SyncResult) :=
  let differences := analyze_repository_differences rv
  if ¬differences.has_conflicts then
    .ok (perform_simple_sync sync_tags differences)
  else
    handle_sync_conflicts conflict_resolution differences

/-- The repository-info dictionary a platform client returns (the engine only
reads `clone_url`, in `_ensure_repository_record`). -/
structure RepoInfo where
  clone_url : String
deriving DecidableEq, Repr

/-- `_perform_bidirectional_sync` (lines 175-208).  `github_repo` / `gitea_repo`
are the platform query results (`none` = the repository does not exist there). -/
def perform_bidirectional_sync (conflict_resolution : String) (sync_tags : Bool)
    (repo_name : String) (github_repo gitea_repo : Option RepoInfo)
    (rv : RepoView) : Except SyncError (List GitPush × SyncResult) :=
  match github_repo, gitea_repo with
  | none, none =>
      .error (.other ("Repository " ++ repo_name ++ " does not exist on either platform"))
  | some _, none =>
      .ok ([GitPush.allHeadsGlob .gitea, GitPush.allTagsGlob .gitea], .createdGitea)
  | none, some _ =>
      .ok ([GitPush.allHeadsGlob .github, GitPush.allTagsGlob .github], .createdGithub)
  | some _, some _ =>
      sync_existing_repositories conflict_resolution sync_tags rv

/-- A row of the `sync_repositories` table (models.py class `SyncRepository`).
Timestamps are naturals; `config` is kept opaque. -/
structure SyncRepository where
  name : String
  github_url : Option String
  gitea_url : Option String
  sync_status : String
  last_sync : Option Nat
  conflict_count : Nat
  created_at : Nat
  config : Option String
deriving DecidableEq, Repr

/-- The `details` JSON attached to a `SyncLog` row: the result dictionary on
success, the stringified exception otherwise. -/
inductive LogDetails where
  | result (r : SyncResult)
  | failure (e : SyncError)
deriving DecidableEq, Repr

/-- A row of the `sync_logs` table (models.py class `SyncLog`). -/
structure SyncLog where
  repository_name : String
  sync_status : String
  details : LogDetails
  timestamp : Nat
deriving DecidableEq, Repr

/-- A row of the `sync_conflicts` table (models.py class `SyncConflict`). -/
structure SyncConflict where
  repository_name : String
  conflict_type : String
  branch_name : Option String
  github_commit : Option Nat
  gitea_commit : Option Nat
  resolved : Bool
  resolution_strategy : Option String
  created_at : Nat
deriving DecidableEq, Repr

/-- The database visible through `get_session()`: the three tables the engine
touches (webhook events are out of scope). -/
structure Store where
  repos : List SyncRepository
  logs : List SyncLog
  conflicts : List SyncConflict
deriving DecidableEq, Repr

/-- SQLAlchemy `query(SyncRepository).filter_by(name=...).first()`. -/
def findRepo (st : Store) (repo_name : String) : Option SyncRepository :=
  st.repos.find? (fun r => r.name = repo_name)

/-- Rewrite only the first row whose `name` matches, as a mutation through
`.first()` does. -/
def updateFirstByName (repo_name : String) (f : SyncRepository → SyncRepository) :
    List SyncRepository → List SyncRepository
  | [] => []
  | r :: rs =>
      if r.name = repo_name then f r :: rs
      else r :: updateFirstByName repo_name f rs

/-- The field writes of `_update_repo_status` (lines 388-393): set the status,
stamp `last_sync` only on `synced`, bump `conflict_count` only on `conflict`. -/
def applyStatus (now : Nat) (status : String) (r : SyncRepository) : SyncRepository :=
  { r with
    sync_status := status,
    last_sync := if status = "synced" then some now else r.last_sync,
    conflict_count := if status = "conflict" then r.conflict_count + 1 else r.conflict_count }

/-- `_update_repo_status` (lines 384-394): a no-op when no row has the name
(the `if repo:` guard), otherwise the writes above on the first matching row. -/
def update_repo_status (now : Nat) (st : Store) (repo_name status : String) : Store :=
  { st with repos := updateFirstByName repo_name (applyStatus now status) st.repos }

/-- The fresh row `_ensure_repository_record` inserts (lines 374-380): URLs from
the platform answers, status `pending`, and the column defaults
(`last_sync` NULL, `conflict_count` 0, `config` NULL). -/
def newRepoRecord (s : Settings) (now : Nat) (repo_name : String)
    (github_repo gitea_repo : Option RepoInfo) : SyncRepository :=
  { name := repo_name,
    github_url := github_repo.map RepoInfo.clone_url,
    gitea_url :=
      if gitea_repo.isSome then
        some (s.gitea_url ++ "/" ++ s.gitea_user ++ "/" ++ repo_name ++ ".git")
      else none,
    sync_status := "pending",
    last_sync := none,
    conflict_count := 0,
    created_at := now,
    config := none }

/-- `_ensure_repository_record` (lines 369-382): insert the fresh row only when
no row with that name exists. -/
def ensure_repository_record (s : Settings) (now : Nat) (st : Store)
    (repo_name : String) (github_repo gitea_repo : Option RepoInfo) : Store :=
  if st.repos.any (fun r => r.name = repo_name) then st
  else { st with repos := st.repos ++ [newRepoRecord s now repo_name github_repo gitea_repo] }

/-- `_log_sync_result` (lines 396-406): append one log row. -/
def log_sync_result (now : Nat) (st : Store) (repo_name status : String)
    (details : LogDetails) : Store :=
  { st with logs := st.logs ++ [⟨repo_name, status, details, now⟩] }

/-- `create_conflict_record` (models.py lines 214-236): append one conflict row
with `resolved` at its column default `False`.  The sync engine never calls it:
no code path of sync_engine.py inserts into the `sync_conflicts` table. -/
def create_conflict_record (now : Nat) (st : Store) (repo_name conflict_type : String)
    (branch_name : Option String) (github_commit gitea_commit : Option Nat) : Store :=
  { st with conflicts := st.conflicts ++
      [⟨repo_name, conflict_type, branch_name, github_commit, gitea_commit,
        false, none, now⟩] }

/-- The tail of `sync_repository` (lines 156-173): final status write plus the
log row, chosen by how `_perform_bidirectional_sync` ended. -/
def finalize_sync (s : Settings) (now : Nat) (repo_name : String)
    (github_repo gitea_repo : Option RepoInfo) (rv : RepoView) (st : Store) : Store :=
  match perform_bidirectional_sync s.conflict_resolution s.sync_tags repo_name
      github_repo gitea_repo rv with
  | .ok (_, result) =>
      log_sync_result now (update_repo_status now st repo_name "synced")
        repo_name "success" (.result result)
  | .error (.conflict bs) =>
      log_sync_result now (update_repo_status now st repo_name "conflict")
        repo_name "conflict" (.failure (.conflict bs))
  | .error (.other m) =>
      log_sync_result now (update_repo_status now st repo_name "failed")
        repo_name "failed" (.failure (.other m))

instance instDecEqExcept {ε α : Type} [DecidableEq ε] [DecidableEq α] :
    DecidableEq (Except ε α) := fun x y =>
  match x, y with
  | .ok a, .ok b => if h : a = b then .isTrue (by simp [h]) else .isFalse (by simp [h])
  | .error a, .error b => if h : a = b then .isTrue (by simp [h]) else .isFalse (by simp [h])
  | .ok _, .error _ => .isFalse (by simp)
  | .error _, .ok _ => .isFalse (by simp)

/-- What one call of `sync_repository` leaves behind: the stored state, the git
pushes it executed, and its return-or-raise. -/
structure SyncCallResult where
  store : Store
  pushes : List GitPush
  result : Except SyncError SyncResult
deriving DecidableEq, Repr

/-- `sync_repository` (lines 138-173).  `github_repo` / `gitea_repo` stand for
the two platform query answers of lines 147-148 and `rv` for the clone state
the git layer produces; the store operations happen in source order:
status `syncing` first, then the record ensure, then the outcome bookkeeping. -/
def sync_repository (s : Settings) (now : Nat) (st : Store) (repo_name : String)
    (github_repo gitea_repo : Option RepoInfo) (rv : RepoView) : SyncCallResult :=
  { store :=
      finalize_sync s now repo_name github_repo gitea_repo rv
        (ensure_repository_record s now
          (update_repo_status now st repo_name "syncing")
          repo_name github_repo gitea_repo),
    pushes :=
      match perform_bidirectional_sync s.conflict_resolution s.sync_tags repo_name
          github_repo gitea_repo rv with
      | .ok (pushes, _) => pushes
      | .error _ => [],
    result :=
      (perform_bidirectional_sync s.conflict_resolution s.sync_tags repo_name
          github_repo gitea_repo rv).map Prod.snd }

/-- The single log row an attempt appends, as a function of the attempt's
inputs alone. -/
def attempt_log (s : Settings) (now : Nat) (repo_name : String)
    (github_repo gitea_repo : Option RepoInfo) (rv : RepoView) : SyncLog :=
  match perform_bidirectional_sync s.conflict_resolution s.sync_tags repo_name
      github_repo gitea_repo rv with
  | .ok (_, result) => ⟨repo_name, "success", .result result, now⟩
  | .error (.conflict bs) => ⟨repo_name, "conflict", .failure (.conflict bs), now⟩
  | .error (.other m) => ⟨repo_name, "failed", .failure (.other m), now⟩

/-- The per-repository inputs of a fleet pass: for each name, the two platform
query answers and the clone state. -/
def FleetEnv : Type :=
  String → Option RepoInfo × Option RepoInfo × RepoView

/-- The whole-fleet branch of `sync_repositories` (lines 119-131): dispatch
`sync_repository` for every discovered name and gather with
`return_exceptions=True`, which hands each task's exception back as a value;
the gathered result list is dropped and the function returns `None` (modelled
by `Unit`).  The store effects of different names commute (each touches only
rows keyed by its own name), so the gather is modelled by a sequential fold. -/
def sync_repositories (s : Settings) (now : Nat) (st : Store) (names : List String)
    (env : FleetEnv) : Store × Unit :=
  (names.foldl
    (fun acc n => (sync_repository s now acc n (env n).1 (env n).2.1 (env n).2.2).store)
    st, ())

/-!
Interleaving model of two concurrent triggers for the same repository name.

`sync_repository` is an `async` coroutine whose store mutations are separated
by `await` points (the platform queries of lines 147-148, every session commit,
the clone/fetch/push network calls).  Two invocations for the same name can run
at once: the webhook endpoints and the manual-trigger endpoint of main.py
schedule `sync_engine.sync_repository(...)` as independent background tasks,
and the scheduler runs its own fleet pass; the semaphore of
`sync_repositories` (line 123) is created per call, so it never gates two
different triggers against each other, whatever its size.  Nothing in
`sync_repository` inspects the stored status or any lock before writing
`syncing` and proceeding.

The model gives each invocation a program counter over its five phases and
lets a schedule interleave them one atomic phase at a time.
-/

/-- The store effect of phase `pc` of one `sync_repository` invocation:
phase 0 writes `syncing` (line 143), phase 1 is the platform queries (no store
effect), phase 2 ensures the record (line 151), phase 3 is the clone, analysis
and pushes (no store effect), phase 4 writes the outcome status and log row. -/
def sync_phase (s : Settings) (now : Nat) (repo_name : String)
    (github_repo gitea_repo : Option RepoInfo) (rv : RepoView)
    (pc : Nat) (st : Store) : Store :=
  if pc = 0 then update_repo_status now st repo_name "syncing"
  else if pc = 2 then ensure_repository_record s now st repo_name github_repo gitea_repo
  else if pc = 4 then finalize_sync s now repo_name github_repo gitea_repo rv st
  else st

/-- Joint state of two concurrent `sync_repository` invocations for the same
repository name: the shared store and each invocation's program counter. -/
structure TwoTriggerState where
  store : Store
  pcA : Nat
  pcB : Nat
deriving DecidableEq, Repr

/-- Run one atomic phase of invocation A (`first = true`) or B; a finished
invocation (counter 5) makes no further step. -/
def stepTrigger (s : Settings) (now : Nat) (repo_name : String)
    (github_repo gitea_repo : Option RepoInfo) (rv : RepoView)
    (σ : TwoTriggerState) (first : Bool) : TwoTriggerState :=
  if first then
    if σ.pcA < 5 then
      ⟨sync_phase s now repo_name github_repo gitea_repo rv σ.pcA σ.store,
       σ.pcA + 1, σ.pcB⟩
    else σ
  else
    if σ.pcB < 5 then
      ⟨sync_phase s now repo_name github_repo gitea_repo rv σ.pcB σ.store,
       σ.pcA, σ.pcB + 1⟩
    else σ

/-- Run a schedule: each entry picks which invocation performs its next phase. -/
def runTriggers (s : Settings) (now : Nat) (repo_name : String)
    (github_repo gitea_repo : Option RepoInfo) (rv : RepoView)
    (sched : List Bool) (σ : TwoTriggerState) : TwoTriggerState :=
  sched.foldl (stepTrigger s now repo_name github_repo gitea_repo rv) σ

/-- An invocation is in flight once it has written `syncing` (phase 0 done) and
until it has written its final status (phase 4 done). -/
def inFlight (pc : Nat) : Bool :=
  decide (1 ≤ pc) && decide (pc ≤ 4)

/-- The branch pushes of a push list that name a given branch (tag and glob
pushes never do). -/
def branchPushesFor (b : String) (ps : List GitPush) : List GitPush :=
  ps.filter (fun p =>
    match p with
    | .branch _ _ n _ => n = b
    | _ => false)

/-- The pushes a sync path executed: none when it raised before pushing (the
only raising paths — missing-on-both and manual-policy conflicts — raise before
any push). -/
def pushesOf : Except SyncError (List GitPush × SyncResult) → List GitPush
  | .ok (ps, _) => ps
  | .error _ => []

/-- The final status string an attempt writes, from its inputs alone. -/
def attempt_status (s : Settings) (_now : Nat) (repo_name : String)
    (github_repo gitea_repo : Option RepoInfo) (rv : RepoView) : String :=
  match perform_bidirectional_sync s.conflict_resolution s.sync_tags repo_name
      github_repo gitea_repo rv with
  | .ok _ => "synced"
  | .error (.conflict _) => "conflict"
  | .error (.other _) => "failed"

/-!
Concrete scenario data used by witnesses and counterexamples.
-/

/-- A configuration with the default `manual` conflict policy. -/
def demoSettings : Settings := ⟨"http://gitea.local", "mirror", "manual", true, 5⟩

/-- A configuration with the `github_wins` conflict policy. -/
def winsSettings : Settings := ⟨"http://gitea.local", "mirror", "github_wins", true, 5⟩

/-- A store with no rows at all. -/
def emptyStore : Store := ⟨[], [], []⟩

/-- A store already tracking repository `gamma`. -/
def gammaStore : Store :=
  ⟨[⟨"gamma", some "gh", some "gt", "synced", none, 0, 0, none⟩], [], []⟩

/-- Clone state of the spec's `gamma` scenario: `main` diverged — each side has
a commit the other lacks. -/
def rvGamma : RepoView :=
  ⟨[("main", 1)], [("main", 3)], [], [], [("main", ([10], [20]))]⟩

/-- Clone state with `main` identical on both remotes. -/
def rvIdentical : RepoView :=
  ⟨[("main", 7)], [("main", 7)], [], [], [("main", ([], []))]⟩

/-- Clone state with branch `a` ahead on GitHub and branch `b` diverged. -/
def rvMixed : RepoView :=
  ⟨[("a", 2), ("b", 3)], [("a", 1), ("b", 4)], [], [],
   [("a", ([5], [])), ("b", ([6], [7]))]⟩

/-- Clone state with only branch `a`, ahead on GitHub. -/
def rvAheadOnly : RepoView :=
  ⟨[("a", 2)], [("a", 1)], [], [], [("a", ([5], []))]⟩

/-- Clone state whose tag `v1` exists only on the GitHub side (branches equal). -/
def rvTagOnly : RepoView :=
  ⟨[("main", 1)], [("main", 1)], [("v1", 5)], [], [("main", ([], []))]⟩

/-- Clone state where comparing branch `bad` raises and branch `good` is
diverged. -/
def rvBroken : RepoView :=
  ⟨[("bad", 1), ("good", 3)], [("bad", 2), ("good", 4)], [], [],
   [("good", ([6], [7]))]⟩

/-- The same clone state with the `bad` comparison repaired. -/
def rvBrokenFixed : RepoView :=
  ⟨[("bad", 1), ("good", 3)], [("bad", 2), ("good", 4)], [], [],
   [("bad", ([9], [])), ("good", ([6], [7]))]⟩

/-- Fleet inputs where no repository exists on either platform (every attempt
fails). -/
def envFail : FleetEnv := fun _ => (none, none, rvIdentical)

/-- Fleet inputs where every repository exists on GitHub only (every attempt
succeeds by creating the Gitea side). -/
def envOk : FleetEnv := fun _ => (some ⟨"u"⟩, none, rvIdentical)

/-- Fleet inputs where `alpha` succeeds and every other repository fails. -/
def envMix : FleetEnv :=
  fun n => if n = "alpha" then (some ⟨"u"⟩, none, rvIdentical)
           else (none, none, rvIdentical)

/-- Two triggers about to sync repository `r`, which the store already tracks. -/
def twoTriggerInit : TwoTriggerState :=
  ⟨⟨[⟨"r", none, none, "synced", none, 0, 0, none⟩], [], []⟩, 0, 0⟩

/-! Helper lemmas shared by the claim theorems. -/

theorem analyzeBranch_eq (rv : RepoView) (d : Differences) (b : String) :
    analyzeBranch rv d b =
      { has_conflicts := d.has_conflicts || condDiverged rv b,
        github_ahead := d.github_ahead ++ (if condGithubAhead rv b then [b] else []),
        gitea_ahead := d.gitea_ahead ++ (if condGiteaAhead rv b then [b] else []),
        diverged_branches :=
          d.diverged_branches ++ (if condDiverged rv b then [b] else []),
        new_branches_github :=
          d.new_branches_github ++ (if condGithubOnly rv b then [b] else []),
        new_branches_gitea :=
          d.new_branches_gitea ++ (if condGiteaOnly rv b then [b] else []),
        new_tags_github := d.new_tags_github,
        new_tags_gitea := d.new_tags_gitea } := by
  unfold analyzeBranch condDiverged condGithubAhead condGiteaAhead condGithubOnly condGiteaOnly
  cases hg : githubTip rv b <;> cases ht : giteaTip rv b <;>
    simp [Option.isSome, Option.isNone]
  cases hc : branchCmp rv b with
  | none => simp
  | some p =>
      obtain ⟨ga, ta⟩ := p
      rename_i g t
      by_cases hgt : g = t
      · simp [hgt]
      · by_cases hga : ga = [] <;> by_cases hta : ta = [] <;>
          simp [hgt, hga, hta]

theorem analyze_loop_eq (rv : RepoView) (bs : List String) (d : Differences) :
    bs.foldl (analyzeBranch rv) d =
      { has_conflicts := d.has_conflicts || bs.any (condDiverged rv),
        github_ahead := d.github_ahead ++ bs.filter (condGithubAhead rv),
        gitea_ahead := d.gitea_ahead ++ bs.filter (condGiteaAhead rv),
        diverged_branches := d.diverged_branches ++ bs.filter (condDiverged rv),
        new_branches_github := d.new_branches_github ++ bs.filter (condGithubOnly rv),
        new_branches_gitea := d.new_branches_gitea ++ bs.filter (condGiteaOnly rv),
        new_tags_github := d.new_tags_github,
        new_tags_gitea := d.new_tags_gitea } := by
  induction bs generalizing d with
  | nil => simp
  | cons b bs ih =>
      simp only [List.foldl_cons, ih, analyzeBranch_eq, List.any_cons, List.filter_cons]
      by_cases h1 : condDiverged rv b <;>
        by_cases h2 : condGithubAhead rv b <;>
        by_cases h3 : condGiteaAhead rv b <;>
        by_cases h4 : condGithubOnly rv b <;>
        by_cases h5 : condGiteaOnly rv b <;>
        simp [h1, h2, h3, h4, h5, Bool.or_assoc]

/-- Closed form of the analyzer: every category is the sub-list of branch names
satisfying its classification condition, and the tag categories stay empty. -/
theorem analyze_eq (rv : RepoView) :
    analyze_repository_differences rv =
      { has_conflicts := (allBranches rv).any (condDiverged rv),
        github_ahead := (allBranches rv).filter (condGithubAhead rv),
        gitea_ahead := (allBranches rv).filter (condGiteaAhead rv),
        diverged_branches := (allBranches rv).filter (condDiverged rv),
        new_branches_github := (allBranches rv).filter (condGithubOnly rv),
        new_branches_gitea := (allBranches rv).filter (condGiteaOnly rv),
        new_tags_github := [],
        new_tags_gitea := [] } := by
  unfold analyze_repository_differences
  rw [analyze_loop_eq]
  rfl

theorem alookup_some_mem {α : Type} {k : String} {v : α} :
    ∀ {l : List (String × α)}, alookup k l = some v → k ∈ l.map Prod.fst := by
  intro l
  induction l with
  | nil => intro h; simp [alookup] at h
  | cons p rest ih =>
      intro h
      unfold alookup at h
      by_cases hk : p.1 = k
      · simp [hk]
      · rw [if_neg hk] at h
        simp [ih h]

theorem mem_allBranches_of_githubTip {rv : RepoView} {b : String} {g : Nat}
    (h : githubTip rv b = some g) : b ∈ allBranches rv := by
  unfold allBranches
  rw [List.mem_dedup, List.mem_append]
  exact Or.inl (alookup_some_mem h)

theorem mem_allBranches_of_giteaTip {rv : RepoView} {b : String} {t : Nat}
    (h : giteaTip rv b = some t) : b ∈ allBranches rv := by
  unfold allBranches
  rw [List.mem_dedup, List.mem_append]
  exact Or.inr (alookup_some_mem h)

theorem allBranches_nodup (rv : RepoView) : (allBranches rv).Nodup :=
  List.nodup_dedup _

theorem updateFirstByName_of_not_mem {repo_name : String}
    {f : SyncRepository → SyncRepository} :
    ∀ {l : List SyncRepository}, l.find? (fun r => r.name = repo_name) = none →
      updateFirstByName repo_name f l = l := by
  intro l
  induction l with
  | nil => intro _; rfl
  | cons r rs ih =>
      intro h
      rw [List.find?_cons] at h
      by_cases hr : r.name = repo_name
      · simp [hr] at h
      · simp only [hr, decide_False] at h
        unfold updateFirstByName
        rw [if_neg hr, ih h]

theorem find?_updateFirstByName {repo_name : String}
    {f : SyncRepository → SyncRepository} (hf : ∀ r, (f r).name = r.name) :
    ∀ (l : List SyncRepository),
      (updateFirstByName repo_name f l).find? (fun r => r.name = repo_name) =
        (l.find? (fun r => r.name = repo_name)).map f := by
  intro l
  induction l with
  | nil => rfl
  | cons r rs ih =>
      by_cases hr : r.name = repo_name
      · simp [updateFirstByName, hr, List.find?_cons, hf]
      · simp [updateFirstByName, hr, List.find?_cons, ih]

theorem applyStatus_name (now : Nat) (status : String) (r : SyncRepository) :
    (applyStatus now status r).name = r.name := rfl

theorem findRepo_update_repo_status (now : Nat) (st : Store)
    (repo_name status : String) :
    findRepo (update_repo_status now st repo_name status) repo_name =
      (findRepo st repo_name).map (applyStatus now status) := by
  unfold findRepo update_repo_status
  exact find?_updateFirstByName (f := applyStatus now status) (fun r => rfl) st.repos

theorem update_repo_status_of_not_found {st : Store} {repo_name : String}
    (h : findRepo st repo_name = none) (now : Nat) (status : String) :
    update_repo_status now st repo_name status = st := by
  unfold update_repo_status
  rw [updateFirstByName_of_not_mem h]

theorem update_repo_status_logs (now : Nat) (st : Store) (repo_name status : String) :
    (update_repo_status now st repo_name status).logs = st.logs := rfl

theorem update_repo_status_conflicts (now : Nat) (st : Store)
    (repo_name status : String) :
    (update_repo_status now st repo_name status).conflicts = st.conflicts := rfl

theorem findRepo_none_iff_not_any {st : Store} {repo_name : String} :
    findRepo st repo_name = none ↔
      st.repos.any (fun r => r.name = repo_name) = false := by
  unfold findRepo
  rw [List.find?_eq_none, List.any_eq_false]

theorem ensure_of_found {st : Store} {repo_name : String} {r : SyncRepository}
    (h : findRepo st repo_name = some r) (s : Settings) (now : Nat)
    (github_repo gitea_repo : Option RepoInfo) :
    ensure_repository_record s now st repo_name github_repo gitea_repo = st := by
  have h1 := List.find?_some h
  have h2 := List.mem_of_find?_eq_some h
  have hany : st.repos.any (fun x => x.name = repo_name) = true :=
    List.any_eq_true.mpr ⟨r, h2, h1⟩
  simp [ensure_repository_record, hany]

theorem ensure_of_not_found {st : Store} {repo_name : String}
    (h : findRepo st repo_name = none) (s : Settings) (now : Nat)
    (github_repo gitea_repo : Option RepoInfo) :
    ensure_repository_record s now st repo_name github_repo gitea_repo =
      { st with repos :=
          st.repos ++ [newRepoRecord s now repo_name github_repo gitea_repo] } := by
  unfold ensure_repository_record
  rw [findRepo_none_iff_not_any] at h
  rw [h]
  simp

theorem findRepo_ensure_of_not_found {st : Store} {repo_name : String}
    (h : findRepo st repo_name = none) (s : Settings) (now : Nat)
    (github_repo gitea_repo : Option RepoInfo) :
    findRepo (ensure_repository_record s now st repo_name github_repo gitea_repo)
        repo_name =
      some (newRepoRecord s now repo_name github_repo gitea_repo) := by
  rw [ensure_of_not_found h]
  unfold findRepo at h ⊢
  simp only [List.find?_append, h, Option.none_or]
  simp [newRepoRecord]

theorem ensure_logs (s : Settings) (now : Nat) (st : Store) (repo_name : String)
    (github_repo gitea_repo : Option RepoInfo) :
    (ensure_repository_record s now st repo_name github_repo gitea_repo).logs =
      st.logs := by
  unfold ensure_repository_record
  split <;> rfl

theorem ensure_conflicts (s : Settings) (now : Nat) (st : Store) (repo_name : String)
    (github_repo gitea_repo : Option RepoInfo) :
    (ensure_repository_record s now st repo_name github_repo gitea_repo).conflicts =
      st.conflicts := by
  unfold ensure_repository_record
  split <;> rfl

theorem finalize_logs (s : Settings) (now : Nat) (repo_name : String)
    (github_repo gitea_repo : Option RepoInfo) (rv : RepoView) (st : Store) :
    (finalize_sync s now repo_name github_repo gitea_repo rv st).logs =
      st.logs ++ [attempt_log s now repo_name github_repo gitea_repo rv] := by
  unfold finalize_sync attempt_log
  cases h : perform_bidirectional_sync s.conflict_resolution s.sync_tags repo_name
      github_repo gitea_repo rv with
  | ok p => rfl
  | error e => cases e <;> rfl

theorem finalize_conflicts (s : Settings) (now : Nat) (repo_name : String)
    (github_repo gitea_repo : Option RepoInfo) (rv : RepoView) (st : Store) :
    (finalize_sync s now repo_name github_repo gitea_repo rv st).conflicts =
      st.conflicts := by
  unfold finalize_sync
  cases h : perform_bidirectional_sync s.conflict_resolution s.sync_tags repo_name
      github_repo gitea_repo rv with
  | ok p => rfl
  | error e => cases e <;> rfl

theorem sync_repository_logs (s : Settings) (now : Nat) (st : Store)
    (repo_name : String) (github_repo gitea_repo : Option RepoInfo) (rv : RepoView) :
    (sync_repository s now st repo_name github_repo gitea_repo rv).store.logs =
      st.logs ++ [attempt_log s now repo_name github_repo gitea_repo rv] := by
  unfold sync_repository
  rw [finalize_logs, ensure_logs, update_repo_status_logs]

theorem sync_repository_conflicts (s : Settings) (now : Nat) (st : Store)
    (repo_name : String) (github_repo gitea_repo : Option RepoInfo) (rv : RepoView) :
    (sync_repository s now st repo_name github_repo gitea_repo rv).store.conflicts =
      st.conflicts := by
  unfold sync_repository
  rw [finalize_conflicts, ensure_conflicts, update_repo_status_conflicts]

theorem sync_repositories_logs (s : Settings) (now : Nat) (names : List String)
    (env : FleetEnv) :
    ∀ st : Store,
      (sync_repositories s now st names env).1.logs =
        st.logs ++ names.map
          (fun n => attempt_log s now n (env n).1 (env n).2.1 (env n).2.2) := by
  induction names with
  | nil => intro st; simp [sync_repositories]
  | cons n ns ih =>
      intro st
      have hstep := sync_repository_logs s now st n (env n).1 (env n).2.1 (env n).2.2
      simp only [sync_repositories, List.foldl_cons] at ih ⊢
      rw [ih, hstep]
      simp

theorem branchPushesFor_append (b : String) (ps qs : List GitPush) :
    branchPushesFor b (ps ++ qs) = branchPushesFor b ps ++ branchPushesFor b qs := by
  unfold branchPushesFor
  rw [List.filter_append]

theorem branchPushesFor_map (b : String) (dest srcSide : Side) (force : Bool)
    (l : List String) :
    branchPushesFor b (l.map (fun n => GitPush.branch dest srcSide n force)) =
      (l.filter (fun n => n = b)).map
        (fun n => GitPush.branch dest srcSide n force) := by
  induction l with
  | nil => rfl
  | cons x xs ih =>
      by_cases hx : x = b <;> simp [branchPushesFor, List.filter_cons, hx] at ih ⊢ <;>
        exact ih

theorem branchPushesFor_tagPushes (b : String) (sync_tags : Bool) :
    branchPushesFor b
        (if sync_tags then [GitPush.allTags .gitea, GitPush.giteaGlobToTags .github]
         else []) = [] := by
  cases sync_tags <;> rfl

theorem filter_eq_nil_of_not_mem {l : List String} {b : String} (h : b ∉ l) :
    l.filter (fun n => n = b) = [] :=
  List.filter_eq_nil_iff.mpr (fun a ha => by
    simp only [decide_eq_true_eq]
    intro hab
    exact h (hab ▸ ha))

theorem filter_eq_self_singleton {l : List String} {b : String}
    (hmem : b ∈ l) (hnd : l.Nodup) : l.filter (fun n => n = b) = [b] := by
  induction l with
  | nil => cases hmem
  | cons x xs ih =>
      rw [List.nodup_cons] at hnd
      rcases List.mem_cons.mp hmem with h | h
      · subst h
        have hnil : xs.filter (fun n => n = b) = [] :=
          filter_eq_nil_of_not_mem hnd.1
        simp [List.filter_cons, hnil]
      · have hxb : ¬x = b := fun hxb => hnd.1 (hxb ▸ h)
        simp [List.filter_cons, hxb, ih h hnd.2]

theorem condGithubOnly_excl {rv : RepoView} {b : String}
    (h : condGithubOnly rv b = true) :
    condGiteaOnly rv b = false ∧ condDiverged rv b = false ∧
      condGithubAhead rv b = false ∧ condGiteaAhead rv b = false := by
  unfold condGithubOnly at h
  unfold condGiteaOnly condDiverged condGithubAhead condGiteaAhead
  cases hg : githubTip rv b <;> cases ht : giteaTip rv b <;>
    simp [hg, ht] at h ⊢

theorem condGiteaOnly_excl {rv : RepoView} {b : String}
    (h : condGiteaOnly rv b = true) :
    condGithubOnly rv b = false ∧ condDiverged rv b = false ∧
      condGithubAhead rv b = false ∧ condGiteaAhead rv b = false := by
  unfold condGiteaOnly at h
  unfold condGithubOnly condDiverged condGithubAhead condGiteaAhead
  cases hg : githubTip rv b <;> cases ht : giteaTip rv b <;>
    simp [hg, ht] at h ⊢

theorem condGithubAhead_excl {rv : RepoView} {b : String}
    (h : condGithubAhead rv b = true) :
    condGithubOnly rv b = false ∧ condGiteaOnly rv b = false ∧
      condDiverged rv b = false ∧ condGiteaAhead rv b = false := by
  unfold condGithubAhead at h
  unfold condGithubOnly condGiteaOnly condDiverged condGiteaAhead
  cases hg : githubTip rv b <;> cases ht : giteaTip rv b <;>
    simp [hg, ht] at h ⊢
  cases hc : branchCmp rv b with
  | none => simp [hc] at h
  | some p =>
      obtain ⟨ga, ta⟩ := p
      simp [hc] at h ⊢
      simp [h.1, h.2.1, h.2.2]

theorem condGiteaAhead_excl {rv : RepoView} {b : String}
    (h : condGiteaAhead rv b = true) :
    condGithubOnly rv b = false ∧ condGiteaOnly rv b = false ∧
      condDiverged rv b = false ∧ condGithubAhead rv b = false := by
  unfold condGiteaAhead at h
  unfold condGithubOnly condGiteaOnly condDiverged condGithubAhead
  cases hg : githubTip rv b <;> cases ht : giteaTip rv b <;>
    simp [hg, ht] at h ⊢
  cases hc : branchCmp rv b with
  | none => simp [hc] at h
  | some p =>
      obtain ⟨ga, ta⟩ := p
      simp [hc] at h ⊢
      simp [h.1, h.2.1, h.2.2]

theorem condDiverged_excl {rv : RepoView} {b : String}
    (h : condDiverged rv b = true) :
    condGithubOnly rv b = false ∧ condGiteaOnly rv b = false ∧
      condGithubAhead rv b = false ∧ condGiteaAhead rv b = false := by
  unfold condDiverged at h
  unfold condGithubOnly condGiteaOnly condGithubAhead condGiteaAhead
  cases hg : githubTip rv b <;> cases ht : giteaTip rv b <;>
    simp [hg, ht] at h ⊢
  cases hc : branchCmp rv b with
  | none => simp [hc] at h
  | some p =>
      obtain ⟨ga, ta⟩ := p
      simp [hc] at h ⊢
      simp [h.1, h.2.1, h.2.2]

theorem flatten_map_singleton {α β : Type} (f : α → β) (l : List α) :
    (l.map (fun a => [f a])).flatten = l.map f := by
  induction l with
  | nil => rfl
  | cons x xs ih => simp [ih]

theorem branchPushesFor_divergedPushes (policy b : String) :
    ∀ (l : List String), b ∉ l →
      branchPushesFor b ((l.map (divergedPush policy)).flatten) = [] := by
  intro l
  induction l with
  | nil => intro _; rfl
  | cons x xs ih =>
      intro h
      have hx : ¬x = b := fun hxb => h (by simp [hxb])
      have hxs : b ∉ xs := fun hmem => h (by simp [hmem])
      simp only [List.map_cons, List.flatten_cons]
      rw [branchPushesFor_append, ih hxs]
      have hhead : branchPushesFor b (divergedPush policy x) = [] := by
        unfold divergedPush branchPushesFor
        split
        · simp [hx]
        · split
          · simp [hx]
          · rfl
      rw [hhead]
      rfl

theorem handle_sync_conflicts_manual (d : Differences) :
    handle_sync_conflicts "manual" d = .error (.conflict d.diverged_branches) := rfl

theorem handle_sync_conflicts_github_wins (d : Differences) :
    handle_sync_conflicts "github_wins" d =
      .ok (d.diverged_branches.map (fun b => GitPush.branch .gitea .github b true),
           .conflictResolved (d.diverged_branches.map (fun b => "github_wins: " ++ b))) := by
  unfold handle_sync_conflicts
  rw [if_neg (by decide)]
  unfold divergedPush divergedAction
  rw [show (fun b => if "github_wins" = "github_wins"
        then [GitPush.branch .gitea .github b true]
        else if "github_wins" = "gitea_wins" then [GitPush.branch .github .gitea b true]
        else []) = (fun b => [GitPush.branch .gitea .github b true]) from
      funext (fun b => by rw [if_pos rfl])]
  rw [show (fun b => if "github_wins" = "github_wins" then ["github_wins: " ++ b]
        else if "github_wins" = "gitea_wins" then ["gitea_wins: " ++ b]
        else []) = (fun b => ["github_wins: " ++ b]) from
      funext (fun b => by rw [if_pos rfl])]
  rw [flatten_map_singleton, flatten_map_singleton]

theorem handle_sync_conflicts_gitea_wins (d : Differences) :
    handle_sync_conflicts "gitea_wins" d =
      .ok (d.diverged_branches.map (fun b => GitPush.branch .github .gitea b true),
           .conflictResolved (d.diverged_branches.map (fun b => "gitea_wins: " ++ b))) := by
  unfold handle_sync_conflicts
  rw [if_neg (by decide)]
  unfold divergedPush divergedAction
  rw [show (fun b => if "gitea_wins" = "github_wins"
        then [GitPush.branch .gitea .github b true]
        else if "gitea_wins" = "gitea_wins" then [GitPush.branch .github .gitea b true]
        else []) = (fun b => [GitPush.branch .github .gitea b true]) from
      funext (fun b => by rw [if_neg (by decide), if_pos rfl])]
  rw [show (fun b => if "gitea_wins" = "github_wins" then ["github_wins: " ++ b]
        else if "gitea_wins" = "gitea_wins" then ["gitea_wins: " ++ b]
        else []) = (fun b => ["gitea_wins: " ++ b]) from
      funext (fun b => by rw [if_neg (by decide), if_pos rfl])]
  rw [flatten_map_singleton, flatten_map_singleton]

theorem findRepo_log_sync_result (t : Nat) (st : Store)
    (repo_name status n : String) (details : LogDetails) :
    findRepo (log_sync_result t st repo_name status details) n = findRepo st n := rfl

theorem findRepo_finalize (s : Settings) (now : Nat) (repo_name : String)
    (github_repo gitea_repo : Option RepoInfo) (rv : RepoView) (st : Store) :
    findRepo (finalize_sync s now repo_name github_repo gitea_repo rv st) repo_name =
      (findRepo st repo_name).map
        (applyStatus now (attempt_status s now repo_name github_repo gitea_repo rv)) := by
  unfold finalize_sync attempt_status
  cases h : perform_bidirectional_sync s.conflict_resolution s.sync_tags repo_name
      github_repo gitea_repo rv with
  | ok p =>
      rw [findRepo_log_sync_result, findRepo_update_repo_status]
  | error e =>
      cases e <;> rw [findRepo_log_sync_result, findRepo_update_repo_status]

theorem applyStatus_status (now : Nat) (status : String) (r : SyncRepository) :
    (applyStatus now status r).sync_status = status := rfl

theorem sync_repository_own_status (s : Settings) (now : Nat) (st : Store)
    (repo_name : String) (github_repo gitea_repo : Option RepoInfo) (rv : RepoView) :
    (findRepo (sync_repository s now st repo_name github_repo gitea_repo rv).store
        repo_name).map SyncRepository.sync_status =
      some (attempt_status s now repo_name github_repo gitea_repo rv) := by
  unfold sync_repository
  rw [findRepo_finalize]
  cases h : findRepo st repo_name with
  | some r =>
      have h1 := findRepo_update_repo_status now st repo_name "syncing"
      rw [h] at h1
      have h2 : findRepo (update_repo_status now st repo_name "syncing") repo_name =
          some (applyStatus now "syncing" r) := by simpa using h1
      rw [ensure_of_found h2, h2]
      rfl
  | none =>
      have h1 := update_repo_status_of_not_found h now "syncing"
      rw [h1, findRepo_ensure_of_not_found h]
      rfl

theorem find?_updateFirstByName_ne {m n : String}
    {f : SyncRepository → SyncRepository} (hf : ∀ r, (f r).name = r.name)
    (hmn : m ≠ n) :
    ∀ (l : List SyncRepository),
      (updateFirstByName m f l).find? (fun r => r.name = n) =
        l.find? (fun r => r.name = n) := by
  intro l
  induction l with
  | nil => rfl
  | cons r rs ih =>
      by_cases hr : r.name = m
      · have hrn : ¬r.name = n := fun hc => hmn (hr ▸ hc)
        have hfn : ¬(f r).name = n := by rw [hf]; exact hrn
        simp [updateFirstByName, hr, List.find?_cons, hrn, hfn, hmn]
      · by_cases hrn : r.name = n
        · simp [updateFirstByName, hr, List.find?_cons, hrn, Ne.symm hmn]
        · simp [updateFirstByName, hr, List.find?_cons, hrn, ih]

theorem findRepo_update_other {m n : String} (hmn : m ≠ n) (now : Nat) (st : Store)
    (status : String) :
    findRepo (update_repo_status now st m status) n = findRepo st n := by
  unfold findRepo update_repo_status
  exact find?_updateFirstByName_ne (f := applyStatus now status) (fun r => rfl) hmn st.repos

theorem findRepo_ensure_other {m n : String} (hmn : m ≠ n) (s : Settings) (now : Nat)
    (st : Store) (github_repo gitea_repo : Option RepoInfo) :
    findRepo (ensure_repository_record s now st m github_repo gitea_repo) n =
      findRepo st n := by
  unfold ensure_repository_record
  split
  · rfl
  · unfold findRepo
    simp only [List.find?_append]
    have : (([newRepoRecord s now m github_repo gitea_repo]).find?
        (fun r => r.name = n)) = none := by
      simp [newRepoRecord, hmn]
    rw [this]
    cases st.repos.find? (fun r => r.name = n) <;> rfl

theorem findRepo_sync_repository_other {m n : String} (hmn : m ≠ n) (s : Settings)
    (now : Nat) (st : Store) (github_repo gitea_repo : Option RepoInfo) (rv : RepoView) :
    findRepo (sync_repository s now st m github_repo gitea_repo rv).store n =
      findRepo st n := by
  unfold sync_repository finalize_sync
  cases h : perform_bidirectional_sync s.conflict_resolution s.sync_tags m
      github_repo gitea_repo rv with
  | ok p =>
      rw [findRepo_log_sync_result, findRepo_update_other hmn,
        findRepo_ensure_other hmn, findRepo_update_other hmn]
  | error e =>
      cases e <;>
        rw [findRepo_log_sync_result, findRepo_update_other hmn,
          findRepo_ensure_other hmn, findRepo_update_other hmn]

theorem findRepo_sync_repositories_not_mem (s : Settings) (now : Nat) (env : FleetEnv)
    {n : String} :
    ∀ (names : List String), n ∉ names → ∀ (st : Store),
      findRepo (sync_repositories s now st names env).1 n = findRepo st n := by
  intro names
  induction names with
  | nil => intro _ st; rfl
  | cons m ms ih =>
      intro h st
      have hmn : m ≠ n := fun hc => h (by simp [hc])
      have hms : n ∉ ms := fun hc => h (by simp [hc])
      simp only [sync_repositories, List.foldl_cons]
      have := ih hms ((sync_repository s now st m (env m).1 (env m).2.1 (env m).2.2).store)
      simp only [sync_repositories] at this
      rw [this, findRepo_sync_repository_other hmn]

theorem sync_repositories_own_status (s : Settings) (now : Nat) (env : FleetEnv) :
    ∀ (names : List String), names.Nodup → ∀ (st : Store) (n : String), n ∈ names →
      (findRepo (sync_repositories s now st names env).1 n).map
          SyncRepository.sync_status =
        some (attempt_status s now n (env n).1 (env n).2.1 (env n).2.2) := by
  intro names
  induction names with
  | nil => intro _ _ n h; cases h
  | cons m ms ih =>
      intro hnd st n hmem
      rw [List.nodup_cons] at hnd
      simp only [sync_repositories, List.foldl_cons]
      rcases List.mem_cons.mp hmem with h | h
      · subst h
        have hpre := findRepo_sync_repositories_not_mem s now env ms hnd.1
          ((sync_repository s now st n (env n).1 (env n).2.1 (env n).2.2).store)
        simp only [sync_repositories] at hpre
        rw [hpre]
        exact sync_repository_own_status s now st n (env n).1 (env n).2.1 (env n).2.2
      · have := ih hnd.2
          ((sync_repository s now st m (env m).1 (env m).2.1 (env m).2.2).store) n h
        simpa only [sync_repositories] using this

theorem not_mem_filter_of_cond_false {l : List String} {p : String → Bool}
    {b : String} (h : p b = false) : b ∉ l.filter p := by
  intro hm
  rw [List.mem_filter, h] at hm
  exact absurd hm.2 (by simp)

theorem updateFirstByName_length (repo_name : String)
    (f : SyncRepository → SyncRepository) :
    ∀ (l : List SyncRepository), (updateFirstByName repo_name f l).length = l.length := by
  intro l
  induction l with
  | nil => rfl
  | cons r rs ih =>
      by_cases hr : r.name = repo_name <;>
        simp [updateFirstByName, hr, ih]

theorem updateFirstByName_filter_ne (repo_name : String)
    {f : SyncRepository → SyncRepository} (hf : ∀ r, (f r).name = r.name) :
    ∀ (l : List SyncRepository),
      (updateFirstByName repo_name f l).filter (fun r => r.name ≠ repo_name) =
        l.filter (fun r => r.name ≠ repo_name) := by
  intro l
  induction l with
  | nil => rfl
  | cons r rs ih =>
      by_cases hr : r.name = repo_name
      · have hfr : (f r).name = repo_name := by rw [hf]; exact hr
        simp [updateFirstByName, hr, List.filter_cons, hfr]
      · simp only [ne_eq, decide_not] at ih ⊢
        simp [updateFirstByName, hr, List.filter_cons, ih]

theorem branchPushesFor_simple_sync (sync_tags : Bool) (d : Differences) (b : String) :
    branchPushesFor b (perform_simple_sync sync_tags d).1 =
      (d.new_branches_github.filter (fun n => n = b)).map
          (fun n => GitPush.branch .gitea .github n false) ++
      (d.new_branches_gitea.filter (fun n => n = b)).map
          (fun n => GitPush.branch .github .gitea n false) ++
      (d.github_ahead.filter (fun n => n = b)).map
          (fun n => GitPush.branch .gitea .github n false) ++
      (d.gitea_ahead.filter (fun n => n = b)).map
          (fun n => GitPush.branch .github .gitea n false) := by
  unfold perform_simple_sync
  rw [show ((d.new_branches_github.map (fun x => GitPush.branch .gitea .github x false) ++
      d.new_branches_gitea.map (fun x => GitPush.branch .github .gitea x false) ++
      d.github_ahead.map (fun x => GitPush.branch .gitea .github x false) ++
      d.gitea_ahead.map (fun x => GitPush.branch .github .gitea x false) ++
      (if sync_tags then [GitPush.allTags .gitea, GitPush.giteaGlobToTags .github]
       else []),
      SyncResult.synced
        (d.new_branches_github.map (fun x => "pushed_to_gitea: " ++ x) ++
         d.new_branches_gitea.map (fun x => "pushed_to_github: " ++ x) ++
         d.github_ahead.map (fun x => "synced_to_gitea: " ++ x) ++
         d.gitea_ahead.map (fun x => "synced_to_github: " ++ x) ++
         (if sync_tags then ["synced_tags"] else []))) : List GitPush × SyncResult).1 =
      d.new_branches_github.map (fun x => GitPush.branch .gitea .github x false) ++
      d.new_branches_gitea.map (fun x => GitPush.branch .github .gitea x false) ++
      d.github_ahead.map (fun x => GitPush.branch .gitea .github x false) ++
      d.gitea_ahead.map (fun x => GitPush.branch .github .gitea x false) ++
      (if sync_tags then [GitPush.allTags .gitea, GitPush.giteaGlobToTags .github]
       else []) from rfl]
  rw [branchPushesFor_append, branchPushesFor_append, branchPushesFor_append,
    branchPushesFor_append, branchPushesFor_map, branchPushesFor_map,
    branchPushesFor_map, branchPushesFor_map, branchPushesFor_tagPushes]
  rw [List.append_nil]

theorem sync_existing_no_conflicts {rv : RepoView}
    (hcf : (analyze_repository_differences rv).has_conflicts = false)
    (policy : String) (sync_tags : Bool) :
    sync_existing_repositories policy sync_tags rv =
      .ok (perform_simple_sync sync_tags (analyze_repository_differences rv)) := by
  unfold sync_existing_repositories
  rw [if_pos (by simp [hcf])]

theorem branchPushesFor_sync_existing_conflicts {rv : RepoView} {b : String}
    (hcf : (analyze_repository_differences rv).has_conflicts = true)
    (hb : b ∉ (analyze_repository_differences rv).diverged_branches)
    (policy : String) (sync_tags : Bool) :
    branchPushesFor b (pushesOf (sync_existing_repositories policy sync_tags rv)) = [] := by
  unfold sync_existing_repositories
  rw [if_neg (by simp [hcf])]
  unfold handle_sync_conflicts
  by_cases hp : policy = "manual"
  · rw [if_pos hp]
    rfl
  · rw [if_neg hp]
    exact branchPushesFor_divergedPushes policy b _ hb

/-!
Claim theorems.
-/

/-- C7: a branch present on both remotes with equal tip commit identifiers
appears in no category of the divergence report — not ahead on either side, not
only-one-side, not diverged — and, under any conflict policy and tag setting,
no branch push of the sync names it, so syncing such a branch changes no branch
ref. -/
theorem C7_identical_branch_no_action (rv : RepoView) (b : String) (g : Nat)
    (policy : String) (sync_tags : Bool)
    (hg : githubTip rv b = some g) (ht : giteaTip rv b = some g) :
    b ∉ (analyze_repository_differences rv).github_ahead ∧
    b ∉ (analyze_repository_differences rv).gitea_ahead ∧
    b ∉ (analyze_repository_differences rv).diverged_branches ∧
    b ∉ (analyze_repository_differences rv).new_branches_github ∧
    b ∉ (analyze_repository_differences rv).new_branches_gitea ∧
    branchPushesFor b (pushesOf (sync_existing_repositories policy sync_tags rv)) = [] := by
  have hcGA : condGithubAhead rv b = false := by
    unfold condGithubAhead
    rw [hg, ht]
    cases hcm : branchCmp rv b with
    | none => rfl
    | some p => obtain ⟨ga, ta⟩ := p; simp
  have hcTA : condGiteaAhead rv b = false := by
    unfold condGiteaAhead
    rw [hg, ht]
    cases hcm : branchCmp rv b with
    | none => rfl
    | some p => obtain ⟨ga, ta⟩ := p; simp
  have hcD : condDiverged rv b = false := by
    unfold condDiverged
    rw [hg, ht]
    cases hcm : branchCmp rv b with
    | none => rfl
    | some p => obtain ⟨ga, ta⟩ := p; simp
  have hcGO : condGithubOnly rv b = false := by
    unfold condGithubOnly
    rw [hg, ht]
    rfl
  have hcTO : condGiteaOnly rv b = false := by
    unfold condGiteaOnly
    rw [hg, ht]
    rfl
  have m1 : b ∉ (analyze_repository_differences rv).github_ahead := by
    rw [analyze_eq]; exact not_mem_filter_of_cond_false hcGA
  have m2 : b ∉ (analyze_repository_differences rv).gitea_ahead := by
    rw [analyze_eq]; exact not_mem_filter_of_cond_false hcTA
  have m3 : b ∉ (analyze_repository_differences rv).diverged_branches := by
    rw [analyze_eq]; exact not_mem_filter_of_cond_false hcD
  have m4 : b ∉ (analyze_repository_differences rv).new_branches_github := by
    rw [analyze_eq]; exact not_mem_filter_of_cond_false hcGO
  have m5 : b ∉ (analyze_repository_differences rv).new_branches_gitea := by
    rw [analyze_eq]; exact not_mem_filter_of_cond_false hcTO
  refine ⟨m1, m2, m3, m4, m5, ?_⟩
  cases hcf : (analyze_repository_differences rv).has_conflicts with
  | true => exact branchPushesFor_sync_existing_conflicts hcf m3 policy sync_tags
  | false =>
      rw [sync_existing_no_conflicts hcf]
      show branchPushesFor b (perform_simple_sync sync_tags
        (analyze_repository_differences rv)).1 = []
      rw [branchPushesFor_simple_sync, filter_eq_nil_of_not_mem m4,
        filter_eq_nil_of_not_mem m5, filter_eq_nil_of_not_mem m1,
        filter_eq_nil_of_not_mem m2]
      rfl

/-- C7 witness: the identical-`main` clone under policy `manual`. -/
theorem C7_identical_branch_no_action_witness :
    "main" ∉ (analyze_repository_differences rvIdentical).github_ahead ∧
    "main" ∉ (analyze_repository_differences rvIdentical).gitea_ahead ∧
    "main" ∉ (analyze_repository_differences rvIdentical).diverged_branches ∧
    "main" ∉ (analyze_repository_differences rvIdentical).new_branches_github ∧
    "main" ∉ (analyze_repository_differences rvIdentical).new_branches_gitea ∧
    branchPushesFor "main"
      (pushesOf (sync_existing_repositories "manual" true rvIdentical)) = [] :=
  C7_identical_branch_no_action rvIdentical "main" 7 "manual" true
    (by decide) (by decide)

/-- C2: a branch on both remotes whose tips differ, with commits on each side
the other lacks, is classified diverged; policy `manual` makes the resolution
fail with a conflict condition naming exactly the diverged branch set and no
push is proposed, while `github_wins` / `gitea_wins` produce exactly one force
push per diverged branch whose source ref resolves to the winning side's
commit. -/
theorem C2_diverged_policy_behaviour (rv : RepoView) (b : String) (g t : Nat)
    (ga ta : List Nat) (sync_tags : Bool)
    (hg : githubTip rv b = some g) (ht : giteaTip rv b = some t)
    (hc : branchCmp rv b = some (ga, ta)) (hgt : g ≠ t)
    (hga : ga ≠ []) (hta : ta ≠ []) :
    b ∈ (analyze_repository_differences rv).diverged_branches ∧
    sync_existing_repositories "manual" sync_tags rv =
      .error (.conflict (analyze_repository_differences rv).diverged_branches) ∧
    pushesOf (sync_existing_repositories "manual" sync_tags rv) = [] ∧
    (∀ d : Differences,
      handle_sync_conflicts "manual" d = .error (.conflict d.diverged_branches)) ∧
    (∀ d : Differences,
      handle_sync_conflicts "github_wins" d =
        .ok (d.diverged_branches.map (fun x => GitPush.branch .gitea .github x true),
             .conflictResolved
               (d.diverged_branches.map (fun x => "github_wins: " ++ x)))) ∧
    (∀ d : Differences,
      handle_sync_conflicts "gitea_wins" d =
        .ok (d.diverged_branches.map (fun x => GitPush.branch .github .gitea x true),
             .conflictResolved
               (d.diverged_branches.map (fun x => "gitea_wins: " ++ x)))) ∧
    pushSourceCommit rv (GitPush.branch .gitea .github b true) = some g ∧
    pushSourceCommit rv (GitPush.branch .github .gitea b true) = some t := by
  have hcD : condDiverged rv b = true := by
    unfold condDiverged
    rw [hg, ht, hc]
    simp [hgt, hga, hta]
  have hmem : b ∈ allBranches rv := mem_allBranches_of_githubTip hg
  have hdb : b ∈ (analyze_repository_differences rv).diverged_branches := by
    rw [analyze_eq]
    exact List.mem_filter.mpr ⟨hmem, hcD⟩
  have hcf : (analyze_repository_differences rv).has_conflicts = true := by
    rw [analyze_eq]
    exact List.any_eq_true.mpr ⟨b, hmem, hcD⟩
  have hman : sync_existing_repositories "manual" sync_tags rv =
      .error (.conflict (analyze_repository_differences rv).diverged_branches) := by
    unfold sync_existing_repositories
    rw [if_neg (by simp [hcf])]
    exact handle_sync_conflicts_manual _
  refine ⟨hdb, hman, by rw [hman]; rfl,
    fun d => handle_sync_conflicts_manual d,
    fun d => handle_sync_conflicts_github_wins d,
    fun d => handle_sync_conflicts_gitea_wins d,
    by simp [pushSourceCommit, hg],
    by simp [pushSourceCommit, ht]⟩

/-- C2 witness: the diverged-`main` clone of the `gamma` scenario, with the
policy equations instantiated at its own report. -/
theorem C2_diverged_policy_behaviour_witness :
    "main" ∈ (analyze_repository_differences rvGamma).diverged_branches ∧
    sync_existing_repositories "manual" true rvGamma =
      .error (.conflict (analyze_repository_differences rvGamma).diverged_branches) ∧
    pushesOf (sync_existing_repositories "manual" true rvGamma) = [] ∧
    handle_sync_conflicts "github_wins" (analyze_repository_differences rvGamma) =
      .ok ((analyze_repository_differences rvGamma).diverged_branches.map
             (fun x => GitPush.branch .gitea .github x true),
           .conflictResolved
             ((analyze_repository_differences rvGamma).diverged_branches.map
               (fun x => "github_wins: " ++ x))) ∧
    pushSourceCommit rvGamma (GitPush.branch .gitea .github "main" true) = some 1 := by
  have h := C2_diverged_policy_behaviour rvGamma "main" 1 3 [10] [20] true
    (by decide) (by decide) (by decide) (by decide) (by decide) (by decide)
  exact ⟨h.1, h.2.1, h.2.2.1, h.2.2.2.2.1 (analyze_repository_differences rvGamma),
    h.2.2.2.2.2.2.1⟩

/-- C9 counterexample: tag `v1` exists only on the GitHub side of `rvTagOnly`,
yet the report's new-tag sets do not mention it — the analyzer never compares
tags, refuting the claim that every one-sided tag is reported. -/
theorem C9_tags_counterexample :
    rvTagOnly.githubTags = [("v1", 5)] ∧
    rvTagOnly.giteaTags = [] ∧
    "v1" ∉ (analyze_repository_differences rvTagOnly).new_tags_github ∧
    "v1" ∉ (analyze_repository_differences rvTagOnly).new_tags_gitea := by
  refine ⟨rfl, rfl, ?_, ?_⟩ <;> decide

/-- C9 (amended): the analyzer does not compare tags at all — the report's
new-tag sets are empty for every clone state, whatever the tags on either side,
so no one-sided or content-diverged tag is ever reported or individually
resolved; tag handling is only the unconditional wholesale pair of tag pushes
that simple sync appends when tag syncing is enabled, insensitive to the
report's content. -/
theorem C9_amended_no_tag_comparison :
    (∀ rv : RepoView,
      (analyze_repository_differences rv).new_tags_github = [] ∧
      (analyze_repository_differences rv).new_tags_gitea = []) ∧
    (∀ d : Differences,
      (perform_simple_sync true d).1 =
        (perform_simple_sync false d).1 ++
          [GitPush.allTags .gitea, GitPush.giteaGlobToTags .github]) := by
  constructor
  · intro rv
    rw [analyze_eq]
    exact ⟨rfl, rfl⟩
  · intro d
    unfold perform_simple_sync
    simp

/-- C10: a status update touches no log or conflict row, keeps the repository
list's length and every row with a different name, is a no-op when no row has
the name, and on the first row with the name changes exactly the status, the
last-sync stamp (only when the new status is `synced`) and the conflict counter
(only when the new status is `conflict`), leaving name, URLs, configuration and
creation time unchanged. -/
theorem C10_update_status_frame (now : Nat) (st : Store) (repo_name status : String) :
    (update_repo_status now st repo_name status).logs = st.logs ∧
    (update_repo_status now st repo_name status).conflicts = st.conflicts ∧
    (update_repo_status now st repo_name status).repos.length = st.repos.length ∧
    (update_repo_status now st repo_name status).repos.filter
        (fun r => r.name ≠ repo_name) =
      st.repos.filter (fun r => r.name ≠ repo_name) ∧
    (findRepo st repo_name = none →
      update_repo_status now st repo_name status = st) ∧
    (∀ r, findRepo st repo_name = some r →
      findRepo (update_repo_status now st repo_name status) repo_name =
        some { r with
          sync_status := status,
          last_sync := if status = "synced" then some now else r.last_sync,
          conflict_count :=
            if status = "conflict" then r.conflict_count + 1
            else r.conflict_count }) := by
  refine ⟨rfl, rfl, updateFirstByName_length repo_name _ st.repos,
    updateFirstByName_filter_ne repo_name (f := applyStatus now status)
      (fun r => rfl) st.repos,
    fun h => update_repo_status_of_not_found h now status,
    fun r h => ?_⟩
  rw [findRepo_update_repo_status, h]
  rfl

/-- C10 witness: updating the tracked `gamma` record to `conflict`. -/
theorem C10_update_status_frame_witness :
    (update_repo_status 9 gammaStore "gamma" "conflict").logs = gammaStore.logs ∧
    (update_repo_status 9 gammaStore "gamma" "conflict").repos.length =
      gammaStore.repos.length ∧
    findRepo (update_repo_status 9 gammaStore "gamma" "conflict") "gamma" =
      some ⟨"gamma", some "gh", some "gt", "conflict", none, 1, 0, none⟩ := by
  have h := C10_update_status_frame 9 gammaStore "gamma" "conflict"
  refine ⟨h.1, h.2.2.1, ?_⟩
  have h6 := h.2.2.2.2.2 ⟨"gamma", some "gh", some "gt", "synced", none, 0, 0, none⟩
    (by decide)
  rw [h6]
  decide

/-- C6 counterexample: for a previously unknown repository the first step of
`sync_repository` — the status update to `syncing` — neither creates a record
nor fails: the store is unchanged and no record exists when the platform
queries begin; the record only appears at the later ensure step, with status
`pending`, not `syncing`.  This refutes the create-first reading of the claim. -/
theorem C6_first_step_counterexample :
    update_repo_status 0 emptyStore "alpha" "syncing" = emptyStore ∧
    findRepo (update_repo_status 0 emptyStore "alpha" "syncing") "alpha" = none ∧
    (findRepo (ensure_repository_record demoSettings 0
        (update_repo_status 0 emptyStore "alpha" "syncing") "alpha"
        (some ⟨"u"⟩) none) "alpha").map SyncRepository.sync_status =
      some "pending" := by
  refine ⟨rfl, rfl, ?_⟩
  decide

/-- C6 (amended): the first store step of `sync_repository` marks an existing
record `syncing`; when no record with the name exists this step changes nothing
at all, and the record is created only after the platform queries, by the
ensure step, with status `pending`. -/
theorem C6_amended_first_step (s : Settings) (now : Nat) (st : Store)
    (repo_name : String) (github_repo gitea_repo : Option RepoInfo) :
    (∀ r, findRepo st repo_name = some r →
      (findRepo (update_repo_status now st repo_name "syncing") repo_name).map
          SyncRepository.sync_status = some "syncing") ∧
    (findRepo st repo_name = none →
      update_repo_status now st repo_name "syncing" = st ∧
      findRepo (ensure_repository_record s now st repo_name github_repo gitea_repo)
          repo_name =
        some (newRepoRecord s now repo_name github_repo gitea_repo) ∧
      (newRepoRecord s now repo_name github_repo gitea_repo).sync_status =
        "pending") := by
  constructor
  · intro r h
    rw [findRepo_update_repo_status, h]
    rfl
  · intro h
    exact ⟨update_repo_status_of_not_found h now "syncing",
      findRepo_ensure_of_not_found h s now github_repo gitea_repo, rfl⟩

/-- C6 witness: a tracked repository is marked `syncing`; an untracked one is
left untouched by the first step and later created `pending`. -/
theorem C6_amended_first_step_witness :
    (findRepo (update_repo_status 4 gammaStore "gamma" "syncing") "gamma").map
        SyncRepository.sync_status = some "syncing" ∧
    update_repo_status 4 emptyStore "alpha" "syncing" = emptyStore ∧
    (newRepoRecord demoSettings 4 "alpha" (some ⟨"u"⟩) none).sync_status =
      "pending" :=
  ⟨(C6_amended_first_step demoSettings 4 gammaStore "gamma" (some ⟨"u"⟩) none).1
      ⟨"gamma", some "gh", some "gt", "synced", none, 0, 0, none⟩ (by decide),
   ((C6_amended_first_step demoSettings 4 emptyStore "alpha" (some ⟨"u"⟩) none).2
      (by decide)).1,
   ((C6_amended_first_step demoSettings 4 emptyStore "alpha" (some ⟨"u"⟩) none).2
      (by decide)).2.2⟩

/-- C8: when the git comparison of one both-sided branch raises, that branch is
excluded from every category of the report, and every other branch's
classification is exactly what it is in any clone state with the same refs and
the same comparisons elsewhere — the failure is contained to the one branch and
the pass still classifies the rest. -/
theorem C8_comparison_failure_isolated (rv rv2 : RepoView) (b : String) (g t : Nat)
    (hg : githubTip rv b = some g) (ht : giteaTip rv b = some t)
    (hc : branchCmp rv b = none)
    (h1 : rv2.githubRefs = rv.githubRefs) (h2 : rv2.giteaRefs = rv.giteaRefs)
    (h3 : ∀ c, c ≠ b → branchCmp rv2 c = branchCmp rv c) :
    (b ∉ (analyze_repository_differences rv).diverged_branches ∧
     b ∉ (analyze_repository_differences rv).github_ahead ∧
     b ∉ (analyze_repository_differences rv).gitea_ahead ∧
     b ∉ (analyze_repository_differences rv).new_branches_github ∧
     b ∉ (analyze_repository_differences rv).new_branches_gitea) ∧
    (∀ c, c ≠ b →
      ((c ∈ (analyze_repository_differences rv2).diverged_branches ↔
        c ∈ (analyze_repository_differences rv).diverged_branches) ∧
       (c ∈ (analyze_repository_differences rv2).github_ahead ↔
        c ∈ (analyze_repository_differences rv).github_ahead) ∧
       (c ∈ (analyze_repository_differences rv2).gitea_ahead ↔
        c ∈ (analyze_repository_differences rv).gitea_ahead) ∧
       (c ∈ (analyze_repository_differences rv2).new_branches_github ↔
        c ∈ (analyze_repository_differences rv).new_branches_github) ∧
       (c ∈ (analyze_repository_differences rv2).new_branches_gitea ↔
        c ∈ (analyze_repository_differences rv).new_branches_gitea))) := by
  have hcD : condDiverged rv b = false := by
    unfold condDiverged
    rw [hg, ht, hc]
  have hcGA : condGithubAhead rv b = false := by
    unfold condGithubAhead
    rw [hg, ht, hc]
  have hcTA : condGiteaAhead rv b = false := by
    unfold condGiteaAhead
    rw [hg, ht, hc]
  have hcGO : condGithubOnly rv b = false := by
    unfold condGithubOnly
    rw [hg, ht]
    rfl
  have hcTO : condGiteaOnly rv b = false := by
    unfold condGiteaOnly
    rw [hg, ht]
    rfl
  have htip1 : ∀ c, githubTip rv2 c = githubTip rv c := by
    intro c
    unfold githubTip
    rw [h1]
  have htip2 : ∀ c, giteaTip rv2 c = giteaTip rv c := by
    intro c
    unfold giteaTip
    rw [h2]
  have hall : allBranches rv2 = allBranches rv := by
    unfold allBranches
    rw [h1, h2]
  constructor
  · exact ⟨by rw [analyze_eq]; exact not_mem_filter_of_cond_false hcD,
      by rw [analyze_eq]; exact not_mem_filter_of_cond_false hcGA,
      by rw [analyze_eq]; exact not_mem_filter_of_cond_false hcTA,
      by rw [analyze_eq]; exact not_mem_filter_of_cond_false hcGO,
      by rw [analyze_eq]; exact not_mem_filter_of_cond_false hcTO⟩
  · intro c hcb
    have e1 : condDiverged rv2 c = condDiverged rv c := by
      unfold condDiverged
      rw [htip1 c, htip2 c, h3 c hcb]
    have e2 : condGithubAhead rv2 c = condGithubAhead rv c := by
      unfold condGithubAhead
      rw [htip1 c, htip2 c, h3 c hcb]
    have e3 : condGiteaAhead rv2 c = condGiteaAhead rv c := by
      unfold condGiteaAhead
      rw [htip1 c, htip2 c, h3 c hcb]
    have e4 : condGithubOnly rv2 c = condGithubOnly rv c := by
      unfold condGithubOnly
      rw [htip1 c, htip2 c]
    have e5 : condGiteaOnly rv2 c = condGiteaOnly rv c := by
      unfold condGiteaOnly
      rw [htip1 c, htip2 c]
    refine ⟨?_, ?_, ?_, ?_, ?_⟩ <;>
      simp only [analyze_eq, List.mem_filter, hall, e1, e2, e3, e4, e5]

/-- C8 witness: in `rvBroken` comparing `bad` raises; `bad` lands in no
category, and `good` is classified the same as in the repaired clone state. -/
theorem C8_comparison_failure_isolated_witness :
    ("bad" ∉ (analyze_repository_differences rvBroken).diverged_branches ∧
     "bad" ∉ (analyze_repository_differences rvBroken).github_ahead ∧
     "bad" ∉ (analyze_repository_differences rvBroken).gitea_ahead ∧
     "bad" ∉ (analyze_repository_differences rvBroken).new_branches_github ∧
     "bad" ∉ (analyze_repository_differences rvBroken).new_branches_gitea) ∧
    ("good" ∈ (analyze_repository_differences rvBrokenFixed).diverged_branches ↔
     "good" ∈ (analyze_repository_differences rvBroken).diverged_branches) := by
  have h := C8_comparison_failure_isolated rvBroken rvBrokenFixed "bad" 1 2
    (by decide) (by decide) (by decide) (by decide) (by decide)
    (by
      intro c hcb
      simp [branchCmp, rvBrokenFixed, rvBroken, alookup, Ne.symm hcb])
  exact ⟨h.1, (h.2 "good" (by decide)).1⟩

/-- C1 counterexample: the spec's `gamma` scenario (policy `manual`, `main`
diverged) ends with the repository in `conflict` and the error surfaced, yet
the conflict table is left empty — the engine creates no ConflictRecord for
the diverged branch, refuting that part of the claim. -/
theorem C1_no_conflict_record_counterexample :
    (sync_repository demoSettings 5 gammaStore "gamma" (some ⟨"u"⟩) (some ⟨"v"⟩)
        rvGamma).result = .error (.conflict ["main"]) ∧
    (findRepo (sync_repository demoSettings 5 gammaStore "gamma" (some ⟨"u"⟩)
        (some ⟨"v"⟩) rvGamma).store "gamma").map SyncRepository.sync_status =
      some "conflict" ∧
    (sync_repository demoSettings 5 gammaStore "gamma" (some ⟨"u"⟩) (some ⟨"v"⟩)
        rvGamma).store.conflicts = [] := by
  refine ⟨?_, ?_, ?_⟩ <;> decide

/-- C1 (amended): under policy `manual`, a sync attempt that finds diverged
branches marks the repository `conflict`, increments its conflict counter,
appends one `conflict` log row carrying the diverged branch set, pushes no ref
on either side, and surfaces the conflict to the caller — but creates no
ConflictRecord: the conflict table is exactly what it was before the attempt. -/
theorem C1_manual_conflict_bookkeeping (s : Settings) (now : Nat) (st : Store)
    (repo_name : String) (gi ti : RepoInfo) (rv : RepoView) (r : SyncRepository)
    (hpol : s.conflict_resolution = "manual")
    (hcf : (analyze_repository_differences rv).has_conflicts = true)
    (hr : findRepo st repo_name = some r) :
    (sync_repository s now st repo_name (some gi) (some ti) rv).result =
      .error (.conflict (analyze_repository_differences rv).diverged_branches) ∧
    (sync_repository s now st repo_name (some gi) (some ti) rv).pushes = [] ∧
    (sync_repository s now st repo_name (some gi) (some ti) rv).store.conflicts =
      st.conflicts ∧
    (sync_repository s now st repo_name (some gi) (some ti) rv).store.logs =
      st.logs ++ [⟨repo_name, "conflict",
        .failure (.conflict (analyze_repository_differences rv).diverged_branches),
        now⟩] ∧
    (findRepo (sync_repository s now st repo_name (some gi) (some ti) rv).store
        repo_name).map SyncRepository.sync_status = some "conflict" ∧
    (findRepo (sync_repository s now st repo_name (some gi) (some ti) rv).store
        repo_name).map SyncRepository.conflict_count =
      some (r.conflict_count + 1) := by
  have hperform : perform_bidirectional_sync s.conflict_resolution s.sync_tags
      repo_name (some gi) (some ti) rv =
      .error (.conflict (analyze_repository_differences rv).diverged_branches) := by
    rw [hpol]
    show sync_existing_repositories "manual" s.sync_tags rv = _
    unfold sync_existing_repositories
    rw [if_neg (by simp [hcf])]
    exact handle_sync_conflicts_manual _
  have hres : (sync_repository s now st repo_name (some gi) (some ti) rv).result =
      .error (.conflict (analyze_repository_differences rv).diverged_branches) := by
    show (perform_bidirectional_sync s.conflict_resolution s.sync_tags repo_name
        (some gi) (some ti) rv).map Prod.snd = _
    rw [hperform]
    rfl
  have hpush : (sync_repository s now st repo_name (some gi) (some ti) rv).pushes =
      [] := by
    show (match perform_bidirectional_sync s.conflict_resolution s.sync_tags
        repo_name (some gi) (some ti) rv with
      | .ok (pushes, _) => pushes
      | .error _ => []) = []
    rw [hperform]
  have hlogrow : attempt_log s now repo_name (some gi) (some ti) rv =
      ⟨repo_name, "conflict",
        .failure (.conflict (analyze_repository_differences rv).diverged_branches),
        now⟩ := by
    unfold attempt_log
    rw [hperform]
  have hstat : attempt_status s now repo_name (some gi) (some ti) rv =
      "conflict" := by
    unfold attempt_status
    rw [hperform]
  have hu := findRepo_update_repo_status now st repo_name "syncing"
  rw [hr] at hu
  have hu2 : findRepo (update_repo_status now st repo_name "syncing") repo_name =
      some (applyStatus now "syncing" r) := by simpa using hu
  have hens := ensure_of_found hu2 s now (some gi) (some ti)
  have hfind : findRepo
      (sync_repository s now st repo_name (some gi) (some ti) rv).store repo_name =
      some (applyStatus now "conflict" (applyStatus now "syncing" r)) := by
    show findRepo (finalize_sync s now repo_name (some gi) (some ti) rv
        (ensure_repository_record s now
          (update_repo_status now st repo_name "syncing")
          repo_name (some gi) (some ti))) repo_name = _
    rw [hens, findRepo_finalize, hstat, hu2]
    rfl
  have hcount1 : (applyStatus now "syncing" r).conflict_count = r.conflict_count := by
    show (if ("syncing" : String) = "conflict" then r.conflict_count + 1
      else r.conflict_count) = r.conflict_count
    rw [if_neg (by decide)]
  have hcount2 : (applyStatus now "conflict" (applyStatus now "syncing" r)).conflict_count =
      (applyStatus now "syncing" r).conflict_count + 1 := by
    show (if ("conflict" : String) = "conflict"
        then (applyStatus now "syncing" r).conflict_count + 1
        else (applyStatus now "syncing" r).conflict_count) =
      (applyStatus now "syncing" r).conflict_count + 1
    rw [if_pos rfl]
  refine ⟨hres, hpush, sync_repository_conflicts s now st repo_name (some gi)
    (some ti) rv, ?_, ?_, ?_⟩
  · rw [sync_repository_logs, hlogrow]
  · rw [hfind]
    rfl
  · rw [hfind]
    show some ((applyStatus now "conflict" (applyStatus now "syncing" r)).conflict_count) =
      some (r.conflict_count + 1)
    rw [hcount2, hcount1]

/-- C1 witness: the `gamma` scenario, tracked with a zero conflict counter. -/
theorem C1_manual_conflict_bookkeeping_witness :
    (sync_repository demoSettings 5 gammaStore "gamma" (some ⟨"u"⟩) (some ⟨"v"⟩)
        rvGamma).pushes = [] ∧
    (sync_repository demoSettings 5 gammaStore "gamma" (some ⟨"u"⟩) (some ⟨"v"⟩)
        rvGamma).store.conflicts = gammaStore.conflicts ∧
    (findRepo (sync_repository demoSettings 5 gammaStore "gamma" (some ⟨"u"⟩)
        (some ⟨"v"⟩) rvGamma).store "gamma").map SyncRepository.conflict_count =
      some 1 := by
  have h := C1_manual_conflict_bookkeeping demoSettings 5 gammaStore "gamma"
    ⟨"u"⟩ ⟨"v"⟩ rvGamma ⟨"gamma", some "gh", some "gt", "synced", none, 0, 0, none⟩
    rfl (by decide) (by decide)
  exact ⟨h.2.1, h.2.2.1, h.2.2.2.2.2⟩

/-- C3 counterexample: in `rvMixed`, branch `a` is GitHub-ahead while branch
`b` is diverged; under every policy the sync pushes nothing for `a` — the
ahead-branch push is not unconditional, refuting the claim's "regardless of
whether other branches of the same repository are diverged". -/
theorem C3_ahead_not_synced_counterexample :
    "a" ∈ (analyze_repository_differences rvMixed).github_ahead ∧
    "b" ∈ (analyze_repository_differences rvMixed).diverged_branches ∧
    branchPushesFor "a"
      (pushesOf (sync_existing_repositories "github_wins" false rvMixed)) = [] ∧
    branchPushesFor "a"
      (pushesOf (sync_existing_repositories "manual" false rvMixed)) = [] ∧
    branchPushesFor "a"
      (pushesOf (sync_existing_repositories "gitea_wins" false rvMixed)) = [] := by
  refine ⟨?_, ?_, ?_, ?_, ?_⟩ <;> decide

/-- C3 (amended): when no branch of the repository is diverged, every
one-sided or ahead branch gets exactly one non-force push of the ahead side's
ref onto the behind side, never the reverse, under any policy; when any branch
is diverged, none of these branches is pushed at all in that attempt. -/
theorem C3_ahead_branch_sync_gated (rv : RepoView) (policy : String)
    (sync_tags : Bool) (b : String) :
    ((analyze_repository_differences rv).has_conflicts = false →
      ((b ∈ (analyze_repository_differences rv).new_branches_github ∨
        b ∈ (analyze_repository_differences rv).github_ahead) →
        branchPushesFor b
            (pushesOf (sync_existing_repositories policy sync_tags rv)) =
          [GitPush.branch .gitea .github b false]) ∧
      ((b ∈ (analyze_repository_differences rv).new_branches_gitea ∨
        b ∈ (analyze_repository_differences rv).gitea_ahead) →
        branchPushesFor b
            (pushesOf (sync_existing_repositories policy sync_tags rv)) =
          [GitPush.branch .github .gitea b false])) ∧
    ((analyze_repository_differences rv).has_conflicts = true →
      (b ∈ (analyze_repository_differences rv).new_branches_github ∨
       b ∈ (analyze_repository_differences rv).github_ahead ∨
       b ∈ (analyze_repository_differences rv).new_branches_gitea ∨
       b ∈ (analyze_repository_differences rv).gitea_ahead) →
      branchPushesFor b
          (pushesOf (sync_existing_repositories policy sync_tags rv)) = []) := by
  have hnodup := allBranches_nodup rv
  constructor
  · intro hcf
    constructor
    · intro hmem
      rcases hmem with h | h
      · obtain ⟨hball, hcond⟩ := List.mem_filter.mp (by rw [analyze_eq] at h; exact h)
        have hex := condGithubOnly_excl hcond
        have s1 : (analyze_repository_differences rv).new_branches_github.filter
            (fun n => n = b) = [b] := by
          rw [analyze_eq]
          exact filter_eq_self_singleton (List.mem_filter.mpr ⟨hball, hcond⟩)
            (hnodup.filter _)
        have s2 : (analyze_repository_differences rv).new_branches_gitea.filter
            (fun n => n = b) = [] := by
          rw [analyze_eq]
          exact filter_eq_nil_of_not_mem (not_mem_filter_of_cond_false hex.1)
        have s3 : (analyze_repository_differences rv).github_ahead.filter
            (fun n => n = b) = [] := by
          rw [analyze_eq]
          exact filter_eq_nil_of_not_mem (not_mem_filter_of_cond_false hex.2.2.1)
        have s4 : (analyze_repository_differences rv).gitea_ahead.filter
            (fun n => n = b) = [] := by
          rw [analyze_eq]
          exact filter_eq_nil_of_not_mem (not_mem_filter_of_cond_false hex.2.2.2)
        rw [sync_existing_no_conflicts hcf]
        show branchPushesFor b (perform_simple_sync sync_tags
          (analyze_repository_differences rv)).1 = _
        rw [branchPushesFor_simple_sync, s1, s2, s3, s4]
        rfl
      · obtain ⟨hball, hcond⟩ := List.mem_filter.mp (by rw [analyze_eq] at h; exact h)
        have hex := condGithubAhead_excl hcond
        have s1 : (analyze_repository_differences rv).new_branches_github.filter
            (fun n => n = b) = [] := by
          rw [analyze_eq]
          exact filter_eq_nil_of_not_mem (not_mem_filter_of_cond_false hex.1)
        have s2 : (analyze_repository_differences rv).new_branches_gitea.filter
            (fun n => n = b) = [] := by
          rw [analyze_eq]
          exact filter_eq_nil_of_not_mem (not_mem_filter_of_cond_false hex.2.1)
        have s3 : (analyze_repository_differences rv).github_ahead.filter
            (fun n => n = b) = [b] := by
          rw [analyze_eq]
          exact filter_eq_self_singleton (List.mem_filter.mpr ⟨hball, hcond⟩)
            (hnodup.filter _)
        have s4 : (analyze_repository_differences rv).gitea_ahead.filter
            (fun n => n = b) = [] := by
          rw [analyze_eq]
          exact filter_eq_nil_of_not_mem (not_mem_filter_of_cond_false hex.2.2.2)
        rw [sync_existing_no_conflicts hcf]
        show branchPushesFor b (perform_simple_sync sync_tags
          (analyze_repository_differences rv)).1 = _
        rw [branchPushesFor_simple_sync, s1, s2, s3, s4]
        rfl
    · intro hmem
      rcases hmem with h | h
      · obtain ⟨hball, hcond⟩ := List.mem_filter.mp (by rw [analyze_eq] at h; exact h)
        have hex := condGiteaOnly_excl hcond
        have s1 : (analyze_repository_differences rv).new_branches_github.filter
            (fun n => n = b) = [] := by
          rw [analyze_eq]
          exact filter_eq_nil_of_not_mem (not_mem_filter_of_cond_false hex.1)
        have s2 : (analyze_repository_differences rv).new_branches_gitea.filter
            (fun n => n = b) = [b] := by
          rw [analyze_eq]
          exact filter_eq_self_singleton (List.mem_filter.mpr ⟨hball, hcond⟩)
            (hnodup.filter _)
        have s3 : (analyze_repository_differences rv).github_ahead.filter
            (fun n => n = b) = [] := by
          rw [analyze_eq]
          exact filter_eq_nil_of_not_mem (not_mem_filter_of_cond_false hex.2.2.1)
        have s4 : (analyze_repository_differences rv).gitea_ahead.filter
            (fun n => n = b) = [] := by
          rw [analyze_eq]
          exact filter_eq_nil_of_not_mem (not_mem_filter_of_cond_false hex.2.2.2)
        rw [sync_existing_no_conflicts hcf]
        show branchPushesFor b (perform_simple_sync sync_tags
          (analyze_repository_differences rv)).1 = _
        rw [branchPushesFor_simple_sync, s1, s2, s3, s4]
        rfl
      · obtain ⟨hball, hcond⟩ := List.mem_filter.mp (by rw [analyze_eq] at h; exact h)
        have hex := condGiteaAhead_excl hcond
        have s1 : (analyze_repository_differences rv).new_branches_github.filter
            (fun n => n = b) = [] := by
          rw [analyze_eq]
          exact filter_eq_nil_of_not_mem (not_mem_filter_of_cond_false hex.1)
        have s2 : (analyze_repository_differences rv).new_branches_gitea.filter
            (fun n => n = b) = [] := by
          rw [analyze_eq]
          exact filter_eq_nil_of_not_mem (not_mem_filter_of_cond_false hex.2.1)
        have s3 : (analyze_repository_differences rv).github_ahead.filter
            (fun n => n = b) = [] := by
          rw [analyze_eq]
          exact filter_eq_nil_of_not_mem (not_mem_filter_of_cond_false hex.2.2.2)
        have s4 : (analyze_repository_differences rv).gitea_ahead.filter
            (fun n => n = b) = [b] := by
          rw [analyze_eq]
          exact filter_eq_self_singleton (List.mem_filter.mpr ⟨hball, hcond⟩)
            (hnodup.filter _)
        rw [sync_existing_no_conflicts hcf]
        show branchPushesFor b (perform_simple_sync sync_tags
          (analyze_repository_differences rv)).1 = _
        rw [branchPushesFor_simple_sync, s1, s2, s3, s4]
        rfl
  · intro hcf hmem
    have hnd : b ∉ (analyze_repository_differences rv).diverged_branches := by
      rcases hmem with h | h | h | h
      · obtain ⟨_, hcond⟩ := List.mem_filter.mp (by rw [analyze_eq] at h; exact h)
        rw [analyze_eq]
        exact not_mem_filter_of_cond_false (condGithubOnly_excl hcond).2.1
      · obtain ⟨_, hcond⟩ := List.mem_filter.mp (by rw [analyze_eq] at h; exact h)
        rw [analyze_eq]
        exact not_mem_filter_of_cond_false (condGithubAhead_excl hcond).2.2.1
      · obtain ⟨_, hcond⟩ := List.mem_filter.mp (by rw [analyze_eq] at h; exact h)
        rw [analyze_eq]
        exact not_mem_filter_of_cond_false (condGiteaOnly_excl hcond).2.1
      · obtain ⟨_, hcond⟩ := List.mem_filter.mp (by rw [analyze_eq] at h; exact h)
        rw [analyze_eq]
        exact not_mem_filter_of_cond_false (condGiteaAhead_excl hcond).2.2.1
    exact branchPushesFor_sync_existing_conflicts hcf hnd policy sync_tags

/-- C3 witness: in a conflict-free clone the GitHub-ahead branch `a` gets its
single non-force push; in `rvMixed` (with a diverged sibling) it gets none. -/
theorem C3_ahead_branch_sync_gated_witness :
    branchPushesFor "a"
        (pushesOf (sync_existing_repositories "manual" true rvAheadOnly)) =
      [GitPush.branch .gitea .github "a" false] ∧
    branchPushesFor "a"
        (pushesOf (sync_existing_repositories "github_wins" false rvMixed)) = [] := by
  have h1 := C3_ahead_branch_sync_gated rvAheadOnly "manual" true "a"
  have h2 := C3_ahead_branch_sync_gated rvMixed "github_wins" false "a"
  exact ⟨(h1.1 (by decide)).1 (Or.inr (by decide)),
    h2.2 (by decide) (Or.inr (Or.inl (by decide)))⟩

/-- C5 counterexample: two fleets whose single repository ends `failed` in one
and `synced` in the other return the same value — `None` — so the whole-fleet
sync returns no per-repository results to its caller, refuting that part of
the claim. -/
theorem C5_no_results_counterexample :
    (sync_repositories demoSettings 0 emptyStore ["alpha"] envFail).2 =
      (sync_repositories demoSettings 0 emptyStore ["alpha"] envOk).2 ∧
    (findRepo (sync_repositories demoSettings 0 emptyStore ["alpha"] envFail).1
        "alpha").map SyncRepository.sync_status = some "failed" ∧
    (findRepo (sync_repositories demoSettings 0 emptyStore ["alpha"] envOk).1
        "alpha").map SyncRepository.sync_status = some "synced" := by
  refine ⟨rfl, ?_, ?_⟩ <;> decide

/-- C5 (amended): the whole-fleet sync dispatches every discovered repository
and completes all of them — each of the N names contributes exactly one log row
reflecting its own outcome and, for distinct names, ends with the status of its
own attempt, regardless of how many other repositories fail (the gather captures
per-task exceptions) — but it returns `None`, not per-repository results. -/
theorem C5_fleet_completion (s : Settings) (now : Nat) (st : Store)
    (names : List String) (env : FleetEnv) :
    (sync_repositories s now st names env).1.logs =
      st.logs ++ names.map
        (fun n => attempt_log s now n (env n).1 (env n).2.1 (env n).2.2) ∧
    (sync_repositories s now st names env).2 = () ∧
    (names.Nodup → ∀ n ∈ names,
      (findRepo (sync_repositories s now st names env).1 n).map
          SyncRepository.sync_status =
        some (attempt_status s now n (env n).1 (env n).2.1 (env n).2.2)) :=
  ⟨sync_repositories_logs s now names env st, rfl,
   fun hnd n hn => sync_repositories_own_status s now env names hnd st n hn⟩

/-- C5 witness: a two-repository fleet where `alpha` succeeds and `beta` fails;
both log rows appear and `beta` still reaches its own final status. -/
theorem C5_fleet_completion_witness :
    ((sync_repositories demoSettings 3 emptyStore ["alpha", "beta"] envMix).1.logs =
      emptyStore.logs ++ ["alpha", "beta"].map
        (fun n => attempt_log demoSettings 3 n (envMix n).1 (envMix n).2.1
          (envMix n).2.2)) ∧
    (findRepo (sync_repositories demoSettings 3 emptyStore ["alpha", "beta"]
        envMix).1 "beta").map SyncRepository.sync_status =
      some (attempt_status demoSettings 3 "beta" (envMix "beta").1
        (envMix "beta").2.1 (envMix "beta").2.2) := by
  have h := C5_fleet_completion demoSettings 3 emptyStore ["alpha", "beta"] envMix
  exact ⟨h.1, h.2.2 (by decide) "beta" (by decide)⟩

/-- C4: the engine has no per-repository mutual exclusion.  Interleaving two
triggers for the same name one await-separated phase at a time — which the
deployment produces, since the webhook and manual endpoints schedule
`sync_repository` as independent background tasks while the scheduler runs its
own pass, and the concurrency semaphore is created per `sync_repositories`
call so it never gates two different triggers — both invocations enter the
in-flight region together: after schedule `[A, B]` both have written `syncing`
and neither has finished, and nothing rejected or queued the second one.  This
is the double entry into `syncing` that the claim rules out. -/
theorem C4_concurrent_same_name_syncs :
    (runTriggers demoSettings 0 "r" (some ⟨"cu"⟩) (some ⟨"cv"⟩) rvIdentical
        [true, false] twoTriggerInit).pcA = 1 ∧
    (runTriggers demoSettings 0 "r" (some ⟨"cu"⟩) (some ⟨"cv"⟩) rvIdentical
        [true, false] twoTriggerInit).pcB = 1 ∧
    inFlight (runTriggers demoSettings 0 "r" (some ⟨"cu"⟩) (some ⟨"cv"⟩)
        rvIdentical [true, false] twoTriggerInit).pcA = true ∧
    inFlight (runTriggers demoSettings 0 "r" (some ⟨"cu"⟩) (some ⟨"cv"⟩)
        rvIdentical [true, false] twoTriggerInit).pcB = true ∧
    (findRepo (runTriggers demoSettings 0 "r" (some ⟨"cu"⟩) (some ⟨"cv"⟩)
        rvIdentical [true, false] twoTriggerInit).store "r").map
      SyncRepository.sync_status = some "syncing" := by
  refine ⟨?_, ?_, ?_, ?_, ?_⟩ <;> decide

end GitSync
